import Mathlib

/-!
Verification development for the `kubed-io/krm-py` serverless Service KRM
transformer (`src/kubed/kustomize/service.py` and the validation step of
`src/kubed/kubectl/fn.py`).

The Python code manipulates YAML/JSON documents (nested dicts, lists,
strings); we embed those documents as the inductive type `J` below, with
dicts as insertion-ordered association lists, mirroring Python dict
semantics (lookup of the first matching key, in-place replacement on
re-assignment of an existing key, append for a fresh key).

Modelling notes, stated once here:
* Machine-level collaborators that the code calls but that are fully
  determined by their inputs are carried as explicit parameters
  (`ZipPrims`: the DEFLATE compressor, CRC-32 and SHA-256, plus the two
  OS-dependent bytes `zipfile` stores in the central directory).  The
  temporary file modification time that `zipfile.ZipFile.write` embeds in
  the archive headers is passed to `transform` as the `dosDate`/`dosTime`
  arguments: it is an input of the real computation even though the
  Python signature hides it.
* `transform` mutates its argument in place (`krm["items"].append(...)`)
  and aborts via `plugin_fail`; we model it as a function into `Except`,
  where the error value carries the state of the document at the moment
  of the abort, exactly as the caller of the Python function would
  observe it after the exception.
* Values that the Python code would feed to `str()` interpolation or
  attribute access with a non-string/non-dict type (for example a numeric
  `metadata.name`) are outside the modelled domain: the model raises a
  `TypeError`-labelled failure there.  All claims below concern inputs on
  which CPython and the model agree.
-/

/-- JSON/YAML document values, with dicts as insertion-ordered
association lists, as produced by `yaml.safe_load` in the source. -/
inductive J where
  | s : String → J
  | n : Int → J
  | b : Bool → J
  | null : J
  | arr : List J → J
  | obj : List (String × J) → J

/-- First-match lookup in an association list, the model of `d[k]` /
`d.get(k)` on a Python dict (whose keys are unique, so first match is
the only match). -/
def dget : List (String × J) → String → Option J
  | [], _ => none
  | (k, v) :: rest, key => if k = key then some v else dget rest key

/-- Model of `d.get(k, default)`. -/
def dgetD (d : List (String × J)) (key : String) (dflt : J) : J :=
  (dget d key).getD dflt

/-- Model of `k in d` for a Python dict. -/
def dhas (d : List (String × J)) (key : String) : Bool :=
  (dget d key).isSome

/-- Model of `d[k] = v` on a Python dict: replace the value in place if
the key exists, otherwise append the new binding at the end. -/
def dset : List (String × J) → String → J → List (String × J)
  | [], key, v => [(key, v)]
  | (k, w) :: rest, key, v =>
    if k = key then (k, v) :: rest else (k, w) :: dset rest key v

/-- Lookup of a key on an arbitrary document: `none` unless the value is
a dict that has the key. -/
def jGet (v : J) (k : String) : Option J :=
  match v with
  | J.obj d => dget d k
  | _ => none

/-- `v.get(k, dflt)` on an arbitrary document. -/
def jGetD (v : J) (k : String) (dflt : J) : J :=
  (jGet v k).getD dflt

/-- Python truthiness of a document value (`if labels:`, `if buildcmd:`,
`not functions_list`, ...). -/
def pyTruthy : J → Bool
  | J.s s => !(s = "")
  | J.n i => !(i = 0)
  | J.b b => b
  | J.null => false
  | J.arr l => !l.isEmpty
  | J.obj d => !d.isEmpty

/-- The fixed allow-list of mergeable per-function fields, from
`merge_function_config` in `src/kubed/kustomize/service.py`. -/
def mergeableKeys : List String :=
  ["invokeStrategy", "requestsPerPod", "retainPods", "concurrency",
   "functionTimeout", "idletimeout", "onceOnly", "resources", "podspec"]

/-- One iteration of the `merge_function_config` loop: overwrite `key`
in `config` when `overrides` declares it. -/
def mergeStep (overrides config : List (String × J)) (key : String) :
    List (String × J) :=
  match dget overrides key with
  | some v => dset config key v
  | none => config

/-- `merge_function_config(defaults, overrides)` from
`src/kubed/kustomize/service.py`: start from a (deep copy of) `defaults`
and overwrite each mergeable key that is present in `overrides`. -/
def merge_function_config (defaults overrides : List (String × J)) :
    List (String × J) :=
  mergeableKeys.foldl (mergeStep overrides) defaults

example : merge_function_config [("concurrency", J.n 5)] [] = [("concurrency", J.n 5)] := rfl
example : merge_function_config [("concurrency", J.n 5)] [("concurrency", J.n 8), ("x", J.n 1)]
    = [("concurrency", J.n 8)] := rfl

/-! ## Base64 (RFC 4648) as used by `base64.b64encode` in the source -/

/-- The base64 alphabet. -/
def b64chars : List Char :=
  "ABCDEFGHIJKLMNOPQRSTUVWXYZabcdefghijklmnopqrstuvwxyz0123456789+/".data

/-- Character for a 6-bit group. -/
def b64char (i : Nat) : Char := b64chars.getD i 'A'

/-- Index of a base64 character in the alphabet. -/
def b64val (c : Char) : Nat := b64chars.indexOf c

/-- Base64-encode a byte list, three bytes to four characters, with
`=` padding, as `base64.b64encode` does. -/
def encB : List Nat → List Char
  | [] => []
  | [a] => [b64char (a / 4), b64char (a % 4 * 16), '=', '=']
  | [a, b] => [b64char (a / 4), b64char (a % 4 * 16 + b / 16), b64char (b % 16 * 4), '=']
  | a :: b :: c :: rest =>
    b64char (a / 4) :: b64char (a % 4 * 16 + b / 16) ::
    b64char (b % 16 * 4 + c / 64) :: b64char (c % 64) :: encB rest

/-- Base64-decode four characters to up to three bytes, honouring `=`
padding, as `base64.b64decode` does on well-formed input. -/
def decB : List Char → List Nat
  | c1 :: c2 :: c3 :: c4 :: rest =>
    if c3 = '=' then [b64val c1 * 4 + b64val c2 / 16]
    else if c4 = '=' then
      [b64val c1 * 4 + b64val c2 / 16, b64val c2 % 16 * 16 + b64val c3 / 4]
    else
      (b64val c1 * 4 + b64val c2 / 16) :: (b64val c2 % 16 * 16 + b64val c3 / 4) ::
      (b64val c3 % 4 * 64 + b64val c4) :: decB rest
  | _ => []

/-- `base64.b64encode(bytes).decode("ascii")` as a string. -/
def base64encode (bs : List Nat) : String := String.mk (encB bs)

/-- Decoding a base64 string back to bytes. -/
def base64decode (s : String) : List Nat := decB s.data

theorem b64val_b64char : ∀ i, i < 64 → b64val (b64char i) = i := by decide

theorem b64char_ne_eq : ∀ i, i < 64 → b64char i ≠ '=' := by decide

/-- Splitting a scaled sum: the quotient recovers the high part. -/
theorem recomb_div (x y k : Nat) (hk : 0 < k) (hy : y < k) : (x * k + y) / k = x := by
  rw [mul_comm, Nat.mul_add_div hk, Nat.div_eq_of_lt hy, add_zero]

/-- Splitting a scaled sum: the remainder recovers the low part. -/
theorem recomb_mod (x y k : Nat) (hy : y < k) : (x * k + y) % k = y := by
  rw [mul_comm, Nat.mul_add_mod]
  exact Nat.mod_eq_of_lt hy

/-- Base64 decoding inverts encoding on genuine byte lists. -/
theorem decB_encB : ∀ bs : List Nat, (∀ x ∈ bs, x < 256) → decB (encB bs) = bs
  | [], _ => rfl
  | [a], h => by
    have ha : a < 256 := h a (by simp)
    have h1 : b64val (b64char (a / 4)) = a / 4 := b64val_b64char _ (by omega)
    have h2 : b64val (b64char (a % 4 * 16)) = a % 4 * 16 := b64val_b64char _ (by omega)
    have d1 : a % 4 * 16 / 16 = a % 4 := by
      rw [mul_comm]; exact Nat.mul_div_cancel_left _ (by norm_num)
    simp only [encB, decB, if_true, h1, h2, d1, List.cons.injEq, and_true]
    omega
  | [a, b], h => by
    have ha : a < 256 := h a (by simp)
    have hb : b < 256 := h b (by simp)
    have h1 : b64val (b64char (a / 4)) = a / 4 := b64val_b64char _ (by omega)
    have h2 : b64val (b64char (a % 4 * 16 + b / 16)) = a % 4 * 16 + b / 16 :=
      b64val_b64char _ (by omega)
    have h3 : b64val (b64char (b % 16 * 4)) = b % 16 * 4 := b64val_b64char _ (by omega)
    have hne : b64char (b % 16 * 4) ≠ '=' := b64char_ne_eq _ (by omega)
    have d1 : (a % 4 * 16 + b / 16) / 16 = a % 4 := recomb_div _ _ 16 (by norm_num) (by omega)
    have m1 : (a % 4 * 16 + b / 16) % 16 = b / 16 := recomb_mod _ _ 16 (by omega)
    have d2 : b % 16 * 4 / 4 = b % 16 := by
      rw [mul_comm]; exact Nat.mul_div_cancel_left _ (by norm_num)
    simp only [encB, decB, if_neg hne, if_true, h1, h2, h3, d1, m1, d2,
      List.cons.injEq, and_true]
    omega
  | a :: b :: c :: rest, h => by
    have ha : a < 256 := h a (by simp)
    have hb : b < 256 := h b (by simp)
    have hc : c < 256 := h c (by simp)
    have h1 : b64val (b64char (a / 4)) = a / 4 := b64val_b64char _ (by omega)
    have h2 : b64val (b64char (a % 4 * 16 + b / 16)) = a % 4 * 16 + b / 16 :=
      b64val_b64char _ (by omega)
    have h3 : b64val (b64char (b % 16 * 4 + c / 64)) = b % 16 * 4 + c / 64 :=
      b64val_b64char _ (by omega)
    have h4 : b64val (b64char (c % 64)) = c % 64 := b64val_b64char _ (by omega)
    have hne3 : b64char (b % 16 * 4 + c / 64) ≠ '=' := b64char_ne_eq _ (by omega)
    have hne4 : b64char (c % 64) ≠ '=' := b64char_ne_eq _ (by omega)
    have hrest := decB_encB rest (fun x hx => h x (by simp [hx]))
    have d1 : (a % 4 * 16 + b / 16) / 16 = a % 4 := recomb_div _ _ 16 (by norm_num) (by omega)
    have m1 : (a % 4 * 16 + b / 16) % 16 = b / 16 := recomb_mod _ _ 16 (by omega)
    have d2 : (b % 16 * 4 + c / 64) / 4 = b % 16 := recomb_div _ _ 4 (by norm_num) (by omega)
    have m2 : (b % 16 * 4 + c / 64) % 4 = c / 64 := recomb_mod _ _ 4 (by omega)
    simp only [encB, decB, if_neg hne3, if_neg hne4, h1, h2, h3, h4, d1, m1, d2, m2,
      List.cons.injEq, hrest, and_true]
    omega

/-! ## The zip archive produced by the literal packaging step

`generate_package` writes the literal code to a temporary `main.py` and
zips it with `zipfile.ZipFile(..., "w", zipfile.ZIP_DEFLATED)` via
`zipf.write(main_py, "main.py")`.  `zipfile` stores, verbatim, the DOS
modification time and date of the written file in both the local file
header (bytes 10..13) and the central directory entry, together with the
CRC-32 and the DEFLATE stream of the content.  The compressor, CRC-32,
SHA-256 and the two OS-dependent central-directory values are carried as
the parameter block `ZipPrims`; the modification time is an explicit
argument. -/

/-- Deterministic primitive functions used by the packaging step. -/
structure ZipPrims where
  deflate : String → List Nat
  crc32 : String → Nat
  sha256hex : List Nat → String
  createSystem : Nat
  externalAttr : Nat

/-- Two little-endian bytes. -/
def le16 (n : Nat) : List Nat := [n % 256, n / 256 % 256]

/-- Four little-endian bytes. -/
def le32 (n : Nat) : List Nat :=
  [n % 256, n / 256 % 256, n / 65536 % 256, n / 16777216 % 256]

/-- ASCII bytes of an archive member name (the names used by the code,
such as `"main.py"`, are plain ASCII). -/
def asciiBytes (s : String) : List Nat := s.data.map Char.toNat

/-- One member of a zip archive: its name, its uncompressed content and
the DOS date/time `zipfile` recorded for it. -/
structure ZipEntry where
  name : String
  content : String
  dosDate : Nat
  dosTime : Nat

/-- The archive member created by the literal packaging step: the
literal code stored under `main.py`, stamped with the temporary file's
modification time. -/
def literal_zip (code : String) (dosDate dosTime : Nat) : ZipEntry :=
  ⟨"main.py", code, dosDate, dosTime⟩

/-- Serialized bytes of a single-member `ZIP_DEFLATED` archive as
`zipfile` lays it out: local file header, DEFLATE stream, central
directory entry, end-of-central-directory record. -/
def zipSingle (P : ZipPrims) (e : ZipEntry) : List Nat :=
  let data := P.deflate e.content
  let nameB := asciiBytes e.name
  let lh := [0x50, 0x4B, 0x03, 0x04] ++ le16 20 ++ le16 0 ++ le16 8 ++
    le16 e.dosTime ++ le16 e.dosDate ++ le32 (P.crc32 e.content) ++
    le32 data.length ++ le32 e.content.utf8ByteSize ++
    le16 nameB.length ++ le16 0 ++ nameB
  let cd := [0x50, 0x4B, 0x01, 0x02] ++ le16 (256 * P.createSystem + 20) ++
    le16 20 ++ le16 0 ++ le16 8 ++ le16 e.dosTime ++ le16 e.dosDate ++
    le32 (P.crc32 e.content) ++ le32 data.length ++
    le32 e.content.utf8ByteSize ++ le16 nameB.length ++ le16 0 ++ le16 0 ++
    le16 0 ++ le16 0 ++ le32 P.externalAttr ++ le32 0 ++ nameB
  let eocd := [0x50, 0x4B, 0x05, 0x06] ++ le16 0 ++ le16 0 ++ le16 1 ++
    le16 1 ++ le32 cd.length ++ le32 (lh.length + data.length) ++ le16 0
  lh ++ data ++ cd ++ eocd

/-- Extracting the single member: decompress its DEFLATE stream. -/
def zipExtract (inflate : List Nat → String) (P : ZipPrims) (e : ZipEntry) :
    List (String × String) :=
  [(e.name, inflate (P.deflate e.content))]

/-- Byte 10 of the serialized archive is the low byte of the recorded
DOS modification time. -/
theorem zipSingle_byte10 (P : ZipPrims) (e : ZipEntry) :
    (zipSingle P e).get? 10 = some (e.dosTime % 256) := rfl

/-! ## Resource generators (`src/kubed/kustomize/service.py`) -/

/-- Source-type inference from `generate_package`: an explicit `type`
wins, else presence of `literal`, else presence of `url`, else none. -/
def infer_source_type (src : List (String × J)) : Option J :=
  match dget src "type" with
  | some t => some t
  | none =>
    match dget src "literal" with
    | some _ => some (J.s "literal")
    | none =>
      match dget src "url" with
      | some _ => some (J.s "url")
      | none => none

/-- The guard of the embedded-literal branch:
`inferred_type == "literal" and "literal" in source_spec`. -/
def isLiteralBranch (src : List (String × J)) : Bool :=
  (match infer_source_type src with
   | some (J.s t) => t == "literal"
   | _ => false) && dhas src "literal"

/-- The `spec` mapping of the generated Package: the environment
reference plus, when `package_spec` declares a source, its processed
source block (the literal branch packaging embedded code, the other
branch copying and normalizing the block). -/
def package_source_spec (P : ZipPrims) (dosDate dosTime : Nat)
    (package_spec : List (String × J)) (env_name env_ns : J) :
    Except String (List (String × J)) :=
  let envObj : J := J.obj [("name", env_name), ("namespace", env_ns)]
  match dget package_spec "source" with
    | none => .ok [("environment", envObj)]
    | some (J.obj src) =>
      if isLiteralBranch src then
        match dget src "literal" with
        | some (J.s code) =>
          let zip_bytes := zipSingle P (literal_zip code dosDate dosTime)
          .ok [("environment", envObj),
               ("source", J.obj [("type", J.s "literal"),
                                 ("literal", J.s (base64encode zip_bytes)),
                                 ("checksum", J.obj [("type", J.s "sha256"),
                                                     ("sum", J.s (P.sha256hex zip_bytes))])])]
        | _ => .error "TypeError: literal source payload is not a string"
      else
        let sc1 := if dhas src "type" then src
          else dset src "type"
            (match infer_source_type src with
             | none => J.s "url"
             | some v => if pyTruthy v then v else J.s "url")
        let sc2 :=
          match dget sc1 "checksum" with
          | some (J.obj ck) =>
            if dhas ck "type" then sc1
            else dset sc1 "checksum" (J.obj (dset ck "type" (J.s "sha256")))
          | _ => sc1
        .ok [("environment", envObj), ("source", J.obj sc2)]
    | some _ => .error "TypeError: source is not a mapping"

/-- `generate_package` from `src/kubed/kustomize/service.py`.  The
result is an `Except` because the literal branch writes the payload to
a file (`write_text`), which needs a string, and indexes into the
source block, which needs a mapping. -/
def generate_package (P : ZipPrims) (dosDate dosTime : Nat) (name ns labels : J)
    (package_spec : List (String × J)) (env_name env_ns : J) (buildcmd : Option J) :
    Except String J :=
  let md0 : List (String × J) := [("name", name), ("namespace", ns)]
  let md := if pyTruthy labels then md0 ++ [("labels", labels)] else md0
  match package_source_spec P dosDate dosTime package_spec env_name env_ns with
  | .error e => .error e
  | .ok sp =>
    let sp2 := match buildcmd with
      | some bc => if pyTruthy bc then sp ++ [("buildcmd", bc)] else sp
      | none => sp
    .ok (J.obj [("apiVersion", J.s "fission.io/v1"), ("kind", J.s "Package"),
                ("metadata", J.obj md), ("spec", J.obj sp2),
                ("status", J.obj [("buildstatus", J.s "pending")])])

/-- The literal constant default invocation strategy from
`generate_function`. -/
def default_invoke_strategy : J :=
  J.obj [("StrategyType", J.s "execution"),
         ("ExecutionStrategy", J.obj [("ExecutorType", J.s "poolmgr")])]

/-- The optional merged fields copied through by `generate_function`. -/
def optionalFields : List String :=
  ["requestsPerPod", "retainPods", "concurrency", "functionTimeout",
   "idletimeout", "onceOnly", "resources", "podspec"]

/-- The `spec` mapping built by `generate_function`: environment and
package references, then `secrets`/`configmaps` when non-empty, the
invocation strategy (defaulted), and the optional merged fields in
their fixed order. -/
def function_spec (function_name package_name package_ns env_name env_ns : J)
    (secrets configmaps : List J) (func_config : List (String × J)) :
    List (String × J) :=
  let sp0 : List (String × J) :=
    [("environment", J.obj [("name", env_name), ("namespace", env_ns)]),
     ("package", J.obj [("packageref", J.obj [("name", package_name),
                                              ("namespace", package_ns)]),
                        ("functionName", function_name)])]
  let sp1 := if secrets.isEmpty then sp0 else sp0 ++ [("secrets", J.arr secrets)]
  let sp2 := if configmaps.isEmpty then sp1 else sp1 ++ [("configmaps", J.arr configmaps)]
  let sp3 := sp2 ++ [("InvokeStrategy",
    match dget func_config "invokeStrategy" with
    | some v => v
    | none => default_invoke_strategy)]
  optionalFields.foldl
    (fun acc fld =>
      match dget func_config fld with
      | some v => acc ++ [(fld, v)]
      | none => acc)
    sp3

/-- `generate_function` from `src/kubed/kustomize/service.py`. -/
def generate_function (name : String) (ns labels : J) (description : Option J)
    (function_name package_name package_ns env_name env_ns : J)
    (secrets configmaps : List J) (func_config : List (String × J)) : J :=
  let md0 : List (String × J) := [("name", J.s name), ("namespace", ns)]
  let md1 := if pyTruthy labels then md0 ++ [("labels", labels)] else md0
  let md2 := match description with
    | some dsc =>
      if pyTruthy dsc then
        md1 ++ [("annotations", J.obj [("kubernetes.io/description", dsc)])]
      else md1
    | none => md1
  J.obj [("apiVersion", J.s "fission.io/v1"), ("kind", J.s "Function"),
         ("metadata", J.obj md2),
         ("spec", J.obj (function_spec function_name package_name package_ns
           env_name env_ns secrets configmaps func_config))]

/-- `generate_http_trigger` from `src/kubed/kustomize/service.py`:
explicit `path` wins, else `/<service>` when the short name equals the
service name, else `/<service>/<short>`; `method` defaults to `GET`,
`host` to the empty string. -/
def generate_http_trigger (name : String) (ns labels : J) (function_name : String)
    (service_name short_function_name : String)
    (trigger_spec : List (String × J)) : J :=
  let path : J :=
    match dget trigger_spec "path" with
    | some p => p
    | none =>
      if short_function_name == service_name then J.s ("/" ++ service_name)
      else J.s ("/" ++ service_name ++ "/" ++ short_function_name)
  let method := dgetD trigger_spec "method" (J.s "GET")
  let host := dgetD trigger_spec "host" (J.s "")
  let md0 : List (String × J) := [("name", J.s name), ("namespace", ns)]
  let md := if pyTruthy labels then md0 ++ [("labels", labels)] else md0
  J.obj [("apiVersion", J.s "fission.io/v1"), ("kind", J.s "HTTPTrigger"),
         ("metadata", J.obj md),
         ("spec", J.obj [("host", host), ("method", method), ("relativeurl", path),
                         ("functionref", J.obj [("type", J.s "name"),
                                                ("name", J.s function_name)])])]

/-! ## The expansion orchestrator `transform` -/

/-- Shared context derived from the Service document in the first part
of `transform` (lines 52-71 of `src/kubed/kustomize/service.py`); `none`
models the `KeyError`/`TypeError`/`AttributeError` the Python code
raises on a document missing those parts. -/
structure Ctx where
  service_name : String
  ns : J
  labels : J
  package_spec : List (String × J)
  package_name : J
  env_name : J
  env_ns : J
  function_defaults : List (String × J)
  functions_val : Option J

/-- Context extraction from the `functionConfig` Service document. -/
def getCtx (fc : J) : Option Ctx :=
  match fc with
  | J.obj svc =>
    match dget svc "metadata", dget svc "spec" with
    | some (J.obj metadata), some (J.obj spec) =>
      match dget metadata "name" with
      | some (J.s service_name) =>
        let ns := dgetD metadata "namespace" (J.s "default")
        let labels := dgetD metadata "labels" (J.obj [])
        match dgetD spec "package" (J.obj []) with
        | J.obj package_spec =>
          let package_name := dgetD package_spec "name" (J.s service_name)
          match dget spec "environment" with
          | some (J.obj env) =>
            match dget env "name" with
            | some env_name =>
              let env_ns := dgetD env "namespace" ns
              match dgetD spec "functionTemplate" (J.obj []) with
              | J.obj fdefs =>
                some ⟨service_name, ns, labels, package_spec, package_name,
                      env_name, env_ns, fdefs, dget spec "functions"⟩
              | _ => none
            | none => none
          | _ => none
        | _ => none
      | _ => none
    | _, _ => none
  | _ => none

/-- The no-merge override-or-default rule used by `transform` for
`secrets`, `configmaps` and `triggers`: the per-function value if the
key is declared, else the template value if declared, else empty. -/
def resolve_field (key : String) (d defaults : List (String × J)) : J :=
  match dget d key with
  | some v => v
  | none =>
    match dget defaults key with
    | some v => v
    | none => J.arr []

/-- A value that the Python code iterates over must be a list. -/
def asArr : J → Except String (List J)
  | J.arr l => .ok l
  | _ => .error "TypeError: value is not a list"

/-- Normalization of secret/configmap references:
`{name: ref["name"], namespace: ref.get("namespace", service_ns)}`
for each entry, in order; `KeyError` when an entry has no name. -/
def normalize_refs (ns : J) : List J → Except String (List J)
  | [] => .ok []
  | r :: rest =>
    match r with
    | J.obj d =>
      match dget d "name" with
      | some nm =>
        match normalize_refs ns rest with
        | .ok tail => .ok (J.obj [("name", nm), ("namespace", dgetD d "namespace" ns)] :: tail)
        | .error e => .error e
      | none => .error "KeyError: name"
    | _ => .error "TypeError: reference is not a mapping"

/-- Generation of the HTTPTrigger resources for one function, in trigger
order; an error is paired with the triggers already generated, since the
Python loop appends them one by one. -/
def gen_triggers (ctx : Ctx) (func_name short : String) :
    List J → Except (String × List J) (List J)
  | [] => .ok []
  | t :: rest =>
    match t with
    | J.obj td =>
      match dgetD td "http" (J.obj []) with
      | J.obj h =>
        let trig := generate_http_trigger func_name ctx.ns ctx.labels func_name
          ctx.service_name short h
        match gen_triggers ctx func_name short rest with
        | .ok l => .ok (trig :: l)
        | .error (e, part) => .error (e, trig :: part)
      | _ => .error ("TypeError: http trigger spec is not a mapping", [])
    | _ => .error ("AttributeError: trigger entry is not a mapping", [])

/-- The body of the `for func_def in spec["functions"]` loop of
`transform`: one generated Function followed by its HTTPTriggers.  An
error is paired with the resources this iteration had already appended
before failing. -/
def process_one (ctx : Ctx) (f : J) : Except (String × List J) (List J) :=
  match f with
  | J.obj d =>
    match (match dget d "name" with
           | none => Except.ok (ctx.service_name, false)
           | some (J.s sn) => Except.ok (sn, true)
           | some _ => Except.error "TypeError: function name is not a string") with
    | .error e => .error (e, [])
    | .ok (short, hasName) =>
      let func_name := if short == ctx.service_name && !hasName then ctx.service_name
        else ctx.service_name ++ "-" ++ short
      let func_config := merge_function_config ctx.function_defaults d
      match asArr (resolve_field "secrets" d ctx.function_defaults) with
      | .error e => .error (e, [])
      | .ok rawSecrets =>
        match normalize_refs ctx.ns rawSecrets with
        | .error e => .error (e, [])
        | .ok secrets =>
          match asArr (resolve_field "configmaps" d ctx.function_defaults) with
          | .error e => .error (e, [])
          | .ok rawCms =>
            match normalize_refs ctx.ns rawCms with
            | .error e => .error (e, [])
            | .ok configmaps =>
              match dget d "functionName" with
              | none => .error ("KeyError: functionName", [])
              | some fnName =>
                let fnRes := generate_function func_name ctx.ns ctx.labels
                  (dget d "description") fnName ctx.package_name ctx.ns
                  ctx.env_name ctx.env_ns secrets configmaps func_config
                match asArr (resolve_field "triggers" d ctx.function_defaults) with
                | .error e => .error (e, [fnRes])
                | .ok ts =>
                  match gen_triggers ctx func_name short ts with
                  | .error (e, part) => .error (e, fnRes :: part)
                  | .ok trigs => .ok (fnRes :: trigs)
  | _ => .error ("AttributeError: function definition is not a mapping", [])

/-- All loop iterations in order; an error carries everything appended
up to the failure point. -/
def run_functions (ctx : Ctx) : List J → Except (String × List J) (List J)
  | [] => .ok []
  | f :: fs =>
    match process_one ctx f with
    | .error (e, part) => .error (e, part)
    | .ok prod =>
      match run_functions ctx fs with
      | .error (e, rest) => .error (e, prod ++ rest)
      | .ok rest => .ok (prod ++ rest)

/-- The KRM ResourceList document handed to `transform`: the Service in
`functionConfig` plus the `items` output list. -/
structure Krm where
  functionConfig : J
  items : List J

/-- `plugin_fail` message for an empty function list (line 88). -/
def emptyFnMsg : String := "Error: spec.functions must contain at least one function"

/-- `plugin_fail` message for ambiguous unnamed functions (line 93; the
source wraps the word name in single quotation marks). -/
def multiFnMsg : String :=
  "Error: name is required for each function when there are multiple functions"

/-- Does a function definition carry an explicit `name` key? -/
def hasNameKey : J → Bool
  | J.obj d => dhas d "name"
  | _ => false

/-- `sum(1 for f in functions_list if "name" not in f)` (line 91). -/
def unnamedCount (l : List J) : Nat := l.countP (fun f => !hasNameKey f)

/-- `transform(krm)` from `src/kubed/kustomize/service.py`.  The error
value carries the message and the document state at the abort point:
the Python function mutates `krm["items"]` in place, so a caller
catching `plugin_fail` observes everything appended before the abort —
in particular the Package resource, which is generated and appended
before the `spec.functions` validations run. -/
def transform (P : ZipPrims) (dosDate dosTime : Nat) (krm : Krm) :
    Except (String × Krm) Krm :=
  match getCtx krm.functionConfig with
  | none => .error ("KeyError: bad service document", krm)
  | some ctx =>
    match generate_package P dosDate dosTime ctx.package_name ctx.ns ctx.labels
        ctx.package_spec ctx.env_name ctx.env_ns (dget ctx.package_spec "buildcmd") with
    | .error e => .error (e, krm)
    | .ok pkg =>
      let items1 := krm.items ++ [pkg]
      let st1 : Krm := ⟨krm.functionConfig, items1⟩
      match ctx.functions_val with
      | none => .error (emptyFnMsg, st1)
      | some (J.arr l) =>
        if l.isEmpty then .error (emptyFnMsg, st1)
        else if 0 < unnamedCount l ∧ 1 < l.length then .error (multiFnMsg, st1)
        else
          match run_functions ctx l with
          | .error (e, part) => .error (e, ⟨krm.functionConfig, items1 ++ part⟩)
          | .ok prod => .ok ⟨krm.functionConfig, items1 ++ prod⟩
      | some v =>
        if pyTruthy v then .error ("TypeError: spec.functions is not a list", st1)
        else .error (emptyFnMsg, st1)

/-! ## Association-list lemmas -/

theorem dget_dset_self (d : List (String × J)) (k : String) (v : J) :
    dget (dset d k v) k = some v := by
  induction d with
  | nil => simp [dset, dget]
  | cons kv rest ih =>
    obtain ⟨k0, w⟩ := kv
    by_cases h : k0 = k
    · simp [dset, dget, h]
    · simp [dset, dget, h, ih]

theorem dget_dset_ne (d : List (String × J)) (k : String) (v : J) (k2 : String)
    (h : k2 ≠ k) : dget (dset d k v) k2 = dget d k2 := by
  induction d with
  | nil =>
    simp only [dset, dget]
    rw [if_neg (fun hh => h hh.symm)]
  | cons kv rest ih =>
    obtain ⟨k0, w⟩ := kv
    by_cases h0 : k0 = k
    · subst h0
      simp only [dset, if_pos rfl, dget]
      rw [if_neg (fun hh => h hh.symm), if_neg (fun hh => h hh.symm)]
    · simp only [dset, if_neg h0, dget]
      by_cases h2 : k0 = k2
      · rw [if_pos h2, if_pos h2]
      · rw [if_neg h2, if_neg h2, ih]

/-- Lookup after the merge loop: a key overridden somewhere in the key
list (and declared by `overrides`) reads from `overrides`, anything else
reads from the accumulator. -/
theorem dget_foldl_mergeStep (o : List (String × J)) :
    ∀ (ks : List String) (c : List (String × J)) (k : String),
      dget (List.foldl (mergeStep o) c ks) k =
        if k ∈ ks ∧ (dget o k).isSome then dget o k else dget c k
  | [], c, k => by simp
  | k0 :: ks, c, k => by
    rw [List.foldl_cons, dget_foldl_mergeStep o ks (mergeStep o c k0) k]
    by_cases hmem : k ∈ ks ∧ (dget o k).isSome
    · simp [hmem, hmem.1, hmem.2, List.mem_cons]
    · by_cases hk : k = k0
      · subst hk
        unfold mergeStep
        cases ho : dget o k with
        | some v =>
          simp [hmem, ho, dget_dset_self, List.mem_cons]
        | none =>
          simp [hmem, ho, List.mem_cons]
      · unfold mergeStep
        have hrw : dget (match dget o k0 with
            | some v => dset c k0 v
            | none => c) k = dget c k := by
          cases ho : dget o k0 with
          | some v => exact dget_dset_ne c k0 v k hk
          | none => rfl
        rw [hrw]
        simp only [List.mem_cons]
        rw [if_neg hmem, if_neg (fun hh => hmem ⟨hh.1.resolve_left hk, hh.2⟩)]

/-! ## Claim C9 -/

/-- C9: `merge_function_config` applied to any defaults and an empty
override returns the defaults unchanged (deep-equal); applied to an
override declaring every mergeable field it returns the override's
value on each mergeable field and the defaults' value on every other
field.  The embedding is a pure function over immutable association
lists, matching the deep-copy discipline of the source, so neither
input is ever written to. -/
theorem merge_defaults_override_semantics :
    (∀ defaults : List (String × J), merge_function_config defaults [] = defaults) ∧
    (∀ defaults overrides : List (String × J),
      (∀ k ∈ mergeableKeys, dhas overrides k = true) →
      ∀ k : String,
        dget (merge_function_config defaults overrides) k =
          if k ∈ mergeableKeys then dget overrides k else dget defaults k) := by
  constructor
  · intro d
    rfl
  · intro d o h k
    unfold merge_function_config
    rw [dget_foldl_mergeStep]
    by_cases hk : k ∈ mergeableKeys
    · have hs : (dget o k).isSome = true := h k hk
      simp [hk, hs]
    · simp [hk]

/-- Defaults used by the C9 witness. -/
def mergeWitnessDefaults : List (String × J) :=
  [("concurrency", J.n 5), ("secrets", J.arr [J.s "keep"]), ("podspec", J.s "old")]

/-- An override declaring every mergeable field, used by the C9 witness. -/
def mergeWitnessOverrides : List (String × J) :=
  [("invokeStrategy", J.s "a"), ("requestsPerPod", J.n 1), ("retainPods", J.b true),
   ("concurrency", J.n 8), ("functionTimeout", J.n 2), ("idletimeout", J.n 3),
   ("onceOnly", J.b false), ("resources", J.obj []), ("podspec", J.s "new"),
   ("extra", J.s "ignored")]

theorem merge_defaults_override_semantics_witness :
    merge_function_config mergeWitnessDefaults [] = mergeWitnessDefaults ∧
    dget (merge_function_config mergeWitnessDefaults mergeWitnessOverrides) "concurrency" =
      (if "concurrency" ∈ mergeableKeys then dget mergeWitnessOverrides "concurrency"
       else dget mergeWitnessDefaults "concurrency") ∧
    dget (merge_function_config mergeWitnessDefaults mergeWitnessOverrides) "secrets" =
      (if "secrets" ∈ mergeableKeys then dget mergeWitnessOverrides "secrets"
       else dget mergeWitnessDefaults "secrets") :=
  ⟨merge_defaults_override_semantics.1 mergeWitnessDefaults,
   merge_defaults_override_semantics.2 mergeWitnessDefaults mergeWitnessOverrides
     (by decide) "concurrency",
   merge_defaults_override_semantics.2 mergeWitnessDefaults mergeWitnessOverrides
     (by decide) "secrets"⟩

/-! ## Claim C6 -/

/-- Two-level lookup used to state properties of generated resources. -/
def jGet2 (j : J) (k1 k2 : String) : Option J :=
  match jGet j k1 with
  | some v => jGet v k2
  | none => none

/-- C6: for every generated HTTPTrigger, an explicit `path` in the
trigger spec is emitted verbatim as the route path; with no explicit
path the route is `/<serviceName>` when the function's short name
equals the service name and `/<serviceName>/<shortName>` otherwise;
`method` defaults to `"GET"` and `host` to the empty string when the
spec omits them. -/
theorem http_trigger_path_method_host (name : String) (ns labels : J)
    (function_name : String) (service_name short : String)
    (spec : List (String × J)) :
    (∀ p, dget spec "path" = some p →
      jGet2 (generate_http_trigger name ns labels function_name service_name short spec)
        "spec" "relativeurl" = some p) ∧
    (dget spec "path" = none → short = service_name →
      jGet2 (generate_http_trigger name ns labels function_name service_name short spec)
        "spec" "relativeurl" = some (J.s ("/" ++ service_name))) ∧
    (dget spec "path" = none → short ≠ service_name →
      jGet2 (generate_http_trigger name ns labels function_name service_name short spec)
        "spec" "relativeurl" = some (J.s ("/" ++ service_name ++ "/" ++ short))) ∧
    (dget spec "method" = none →
      jGet2 (generate_http_trigger name ns labels function_name service_name short spec)
        "spec" "method" = some (J.s "GET")) ∧
    (dget spec "host" = none →
      jGet2 (generate_http_trigger name ns labels function_name service_name short spec)
        "spec" "host" = some (J.s "")) := by
  refine ⟨?_, ?_, ?_, ?_, ?_⟩
  · intro p hp
    simp [generate_http_trigger, jGet2, jGet, dget, hp]
  · intro hp hs
    simp [generate_http_trigger, jGet2, jGet, dget, hp, hs]
  · intro hp hs
    simp [generate_http_trigger, jGet2, jGet, dget, hp, hs]
  · intro hm
    simp [generate_http_trigger, jGet2, jGet, dget, dgetD, hm]
  · intro hh
    simp [generate_http_trigger, jGet2, jGet, dget, dgetD, hh]

theorem http_trigger_path_method_host_witness :
    jGet2 (generate_http_trigger "n" J.null J.null "fn" "svc" "svc"
        [("path", J.s "/explicit")]) "spec" "relativeurl" = some (J.s "/explicit") ∧
    jGet2 (generate_http_trigger "n" J.null J.null "fn" "svc" "svc" [])
      "spec" "relativeurl" = some (J.s ("/" ++ "svc")) ∧
    jGet2 (generate_http_trigger "n" J.null J.null "fn" "svc" "other"
        [("hostOnly", J.b true)]) "spec" "relativeurl" =
      some (J.s ("/" ++ "svc" ++ "/" ++ "other")) ∧
    jGet2 (generate_http_trigger "n" J.null J.null "fn" "svc" "svc" [])
      "spec" "method" = some (J.s "GET") ∧
    jGet2 (generate_http_trigger "n" J.null J.null "fn" "svc" "svc" [])
      "spec" "host" = some (J.s "") :=
  ⟨(http_trigger_path_method_host "n" J.null J.null "fn" "svc" "svc"
      [("path", J.s "/explicit")]).1 (J.s "/explicit") rfl,
   (http_trigger_path_method_host "n" J.null J.null "fn" "svc" "svc" []).2.1 rfl rfl,
   (http_trigger_path_method_host "n" J.null J.null "fn" "svc" "other"
      [("hostOnly", J.b true)]).2.2.1 rfl (by decide),
   (http_trigger_path_method_host "n" J.null J.null "fn" "svc" "svc" []).2.2.2.1 rfl,
   (http_trigger_path_method_host "n" J.null J.null "fn" "svc" "svc" []).2.2.2.2 rfl⟩

/-! ## Claim C2 -/

/-- C2 (code defect): the serialized archive bytes are not a function
of the code string and entry filename alone — byte 10 of the archive is
the low byte of the DOS modification time that `zipfile.ZipFile.write`
reads from the freshly written temporary file, so two invocations of
the literal packaging step with identical `code` and identical entry
filename but different clock readings produce different archive bytes
(and hence the claimed equality of checksums and payloads has no
basis).  `P` quantifies over every possible DEFLATE/CRC-32/SHA-256
implementation, so the inequality does not depend on modelling those
primitives. -/
theorem literal_zip_bytes_depend_on_timestamp (P : ZipPrims) (code : String)
    (dd t t2 : Nat) (h : t % 256 ≠ t2 % 256) :
    zipSingle P (literal_zip code dd t) ≠ zipSingle P (literal_zip code dd t2) := by
  intro heq
  have h1 : (zipSingle P (literal_zip code dd t)).get? 10 = some (t % 256) :=
    zipSingle_byte10 P (literal_zip code dd t)
  have h2 : (zipSingle P (literal_zip code dd t2)).get? 10 = some (t2 % 256) :=
    zipSingle_byte10 P (literal_zip code dd t2)
  rw [heq, h2] at h1
  exact h (Option.some.inj h1.symm)

/-- A concrete primitive block (any would do) used by witnesses. -/
def P0 : ZipPrims := ⟨fun _ => [], fun _ => 0, fun _ => "", 3, 0⟩

theorem literal_zip_bytes_depend_on_timestamp_witness :
    zipSingle P0 (literal_zip "print(1)" 0 0) ≠ zipSingle P0 (literal_zip "print(1)" 0 1) :=
  literal_zip_bytes_depend_on_timestamp P0 "print(1)" 0 0 1 (by decide)

/-! ## Claim C4 -/

/-- The Service-document validation written out in
`src/kubed/kubectl/fn.py` (used verbatim by both `pack` and `publish`):
`service.get('kind') != 'Service' or not
service.get('apiVersion', '').startswith('serverless.krm.kubed.io')`
is a hard failure. -/
def is_serverless_service (service : J) : Bool :=
  (match jGet service "kind" with
   | some (J.s k) => k == "Service"
   | _ => false) &&
  (match jGetD service "apiVersion" (J.s "") with
   | J.s v => v.startsWith "serverless.krm.kubed.io"
   | _ => false)

/-- Modelled from the spec: the input contract of the expansion engine
(spec section 6) states the `functionConfig` is "validated to have
`kind == "Service"` and an `apiVersion` prefixed by the platform's
serverless API group" before the engine appends anything, and that a
malformed kind/apiVersion is "a hard failure, not a silent no-op".
The KRM dispatch layer that performs this validation (the `kubed.krm`
package imported by `service.py`) is not among the sources; the
validation predicate itself is taken from `src/kubed/kubectl/fn.py`,
which spells out the identical check for the same document type. -/
def run_service_function (P : ZipPrims) (dosDate dosTime : Nat) (krm : Krm) :
    Except (String × Krm) Krm :=
  if is_serverless_service krm.functionConfig then transform P dosDate dosTime krm
  else .error ("Error: File is not a serverless Service resource", krm)

/-- C4: an input whose functionConfig has a kind other than `Service`,
or an apiVersion that is not a string prefixed by the serverless API
group, makes the expansion fail hard with the document untouched — it
is an error result carrying the unchanged input, not a silent no-op. -/
theorem invalid_kind_or_api_group_fails (P : ZipPrims) (dosDate dosTime : Nat)
    (krm : Krm)
    (h : jGet krm.functionConfig "kind" ≠ some (J.s "Service") ∨
         (∀ v : String, jGetD krm.functionConfig "apiVersion" (J.s "") = J.s v →
            v.startsWith "serverless.krm.kubed.io" = false)) :
    run_service_function P dosDate dosTime krm =
      .error ("Error: File is not a serverless Service resource", krm) := by
  have hfalse : is_serverless_service krm.functionConfig = false := by
    unfold is_serverless_service
    cases h with
    | inl hk =>
      rw [Bool.and_eq_false_iff]
      left
      cases hg : jGet krm.functionConfig "kind" with
      | none => rfl
      | some v =>
        cases v with
        | s k =>
          by_cases hks : k = "Service"
          · exact absurd (hg.trans (by rw [hks])) hk
          · simp [hks]
        | n i => rfl
        | b bb => rfl
        | null => rfl
        | arr l => rfl
        | obj d => rfl
    | inr ha =>
      rw [Bool.and_eq_false_iff]
      right
      cases hg : jGetD krm.functionConfig "apiVersion" (J.s "") with
      | s v => exact ha v hg
      | n i => rfl
      | b bb => rfl
      | null => rfl
      | arr l => rfl
      | obj d => rfl
  unfold run_service_function
  rw [hfalse]
  rfl

theorem invalid_kind_or_api_group_fails_witness :
    run_service_function P0 0 0
      ⟨J.obj [("kind", J.s "Deployment"),
              ("apiVersion", J.s "serverless.krm.kubed.io/v1alpha1"),
              ("metadata", J.obj [("name", J.s "svc")])], []⟩ =
      .error ("Error: File is not a serverless Service resource",
        ⟨J.obj [("kind", J.s "Deployment"),
                ("apiVersion", J.s "serverless.krm.kubed.io/v1alpha1"),
                ("metadata", J.obj [("name", J.s "svc")])], []⟩) :=
  invalid_kind_or_api_group_fails P0 0 0 _
    (Or.inl (by simp [jGet, dget]))

/-! ## Claim C7 -/

theorem le16_lt (n : Nat) : ∀ x ∈ le16 n, x < 256 := by
  simp [le16]
  omega

theorem le32_lt (n : Nat) : ∀ x ∈ le32 n, x < 256 := by
  simp [le32]
  omega

/-- Every serialized archive byte is a genuine byte, provided the
compressed stream and the member name consist of bytes. -/
theorem zipSingle_bytes_lt (P : ZipPrims) (e : ZipEntry)
    (hd : ∀ x ∈ P.deflate e.content, x < 256)
    (hn : ∀ x ∈ asciiBytes e.name, x < 256) :
    ∀ x ∈ zipSingle P e, x < 256 := by
  intro x hx
  simp only [zipSingle, List.mem_append, List.mem_cons, List.not_mem_nil, or_false,
    le16, le32, List.mem_singleton] at hx
  casesm* _ ∨ _
  all_goals first
    | exact hd x (by assumption)
    | exact hn x (by assumption)
    | omega

theorem main_py_bytes_lt : ∀ x ∈ asciiBytes "main.py", x < 256 := by decide

/-- C7: when the package source block has a literal payload and its
inferred type is literal, the generated Package's source block is
exactly `{type: "literal", literal: <base64 of the archive bytes>,
checksum: {type: "sha256", sum: <sha256 of the same bytes>}}`, every
other field of the input source block being discarded; base64-decoding
the emitted payload returns exactly the archive bytes, and the archive
holds a single member `main.py` whose decompression yields exactly the
input code string. -/
theorem literal_package_source_block (P : ZipPrims) (dosDate dosTime : Nat)
    (name ns labels : J) (package_spec : List (String × J)) (env_name env_ns : J)
    (buildcmd : Option J) (src : List (String × J)) (code : String)
    (inflate : List Nat → String)
    (hsrc : dget package_spec "source" = some (J.obj src))
    (htype : infer_source_type src = some (J.s "literal"))
    (hlit : dget src "literal" = some (J.s code))
    (hbytes : ∀ x ∈ P.deflate code, x < 256)
    (hinf : inflate (P.deflate code) = code) :
    ∃ pkg, generate_package P dosDate dosTime name ns labels package_spec
        env_name env_ns buildcmd = .ok pkg ∧
      jGet2 pkg "spec" "source" = some (J.obj
        [("type", J.s "literal"),
         ("literal", J.s (base64encode (zipSingle P (literal_zip code dosDate dosTime)))),
         ("checksum", J.obj [("type", J.s "sha256"),
            ("sum", J.s (P.sha256hex (zipSingle P (literal_zip code dosDate dosTime))))])]) ∧
      base64decode (base64encode (zipSingle P (literal_zip code dosDate dosTime))) =
        zipSingle P (literal_zip code dosDate dosTime) ∧
      zipExtract inflate P (literal_zip code dosDate dosTime) = [("main.py", code)] := by
  have hbr : isLiteralBranch src = true := by
    unfold isLiteralBranch
    rw [htype]
    simp [dhas, hlit]
  have key : ∃ pkg, generate_package P dosDate dosTime name ns labels package_spec
      env_name env_ns buildcmd = .ok pkg ∧
      jGet2 pkg "spec" "source" = some (J.obj
        [("type", J.s "literal"),
         ("literal", J.s (base64encode (zipSingle P (literal_zip code dosDate dosTime)))),
         ("checksum", J.obj [("type", J.s "sha256"),
            ("sum", J.s (P.sha256hex (zipSingle P (literal_zip code dosDate dosTime))))])]) := by
    unfold generate_package package_source_spec
    simp only [hsrc]
    rw [if_pos hbr]
    simp only [hlit]
    cases buildcmd with
    | none => exact ⟨_, rfl, by simp [jGet2, jGet, dget]⟩
    | some bval =>
      refine ⟨_, rfl, ?_⟩
      by_cases hb : pyTruthy bval = true
      · simp [jGet2, jGet, dget, hb]
      · simp [jGet2, jGet, dget, hb]
  obtain ⟨pkg, h1, h2⟩ := key
  exact ⟨pkg, h1, h2,
    decB_encB _ (zipSingle_bytes_lt P (literal_zip code dosDate dosTime)
      hbytes main_py_bytes_lt),
    by simp [zipExtract, literal_zip, hinf]⟩

/-- Concrete primitives for the C7 witness: byte-wise identity
compression, so decompression is the byte-to-character decoding. -/
def P1 : ZipPrims := ⟨fun s => asciiBytes s, fun _ => 0, fun _ => "deadbeef", 3, 0⟩

/-- Decompressor inverting `P1.deflate` on ASCII content. -/
def inflate1 (bs : List Nat) : String := String.mk (bs.map Char.ofNat)

theorem literal_package_source_block_witness :
    ∃ pkg, generate_package P1 0 0 (J.s "svc") (J.s "default") (J.obj [])
        [("source", J.obj [("literal", J.s "x=1"), ("junk", J.n 9)])]
        (J.s "env") (J.s "default") none = .ok pkg ∧
      jGet2 pkg "spec" "source" = some (J.obj
        [("type", J.s "literal"),
         ("literal", J.s (base64encode (zipSingle P1 (literal_zip "x=1" 0 0)))),
         ("checksum", J.obj [("type", J.s "sha256"),
            ("sum", J.s (P1.sha256hex (zipSingle P1 (literal_zip "x=1" 0 0))))])]) ∧
      base64decode (base64encode (zipSingle P1 (literal_zip "x=1" 0 0))) =
        zipSingle P1 (literal_zip "x=1" 0 0) ∧
      zipExtract inflate1 P1 (literal_zip "x=1" 0 0) = [("main.py", "x=1")] :=
  literal_package_source_block P1 0 0 (J.s "svc") (J.s "default") (J.obj [])
    [("source", J.obj [("literal", J.s "x=1"), ("junk", J.n 9)])]
    (J.s "env") (J.s "default") none
    [("literal", J.s "x=1"), ("junk", J.n 9)] "x=1" inflate1
    rfl rfl rfl (by decide) (by decide)

/-! ## Well-formed function definitions: the domain on which the loop
body of `transform` runs to completion -/

/-- A secret/configmap reference the normalization loop accepts: a
mapping with a `name` key. -/
def refEntryWF (r : J) : Bool :=
  match r with
  | J.obj d => dhas d "name"
  | _ => false

/-- A list of well-formed references. -/
def refListWF : J → Bool
  | J.arr l => l.all refEntryWF
  | _ => false

/-- A trigger entry the trigger loop accepts: a mapping whose `http`
value, when present, is a mapping. -/
def trigEntryWF (t : J) : Bool :=
  match t with
  | J.obj td =>
    match dgetD td "http" (J.obj []) with
    | J.obj _ => true
    | _ => false
  | _ => false

/-- A list of well-formed trigger entries. -/
def trigListWF : J → Bool
  | J.arr l => l.all trigEntryWF
  | _ => false

/-- A declared field, if present, passes `check`. -/
def fieldWF (check : J → Bool) (d : List (String × J)) (key : String) : Bool :=
  match dget d key with
  | none => true
  | some v => check v

/-- A function definition on which the loop body succeeds: a mapping
with a `functionName`, a string `name` if any, and well-formed
`secrets`/`configmaps`/`triggers` if declared. -/
def funcWF (f : J) : Bool :=
  match f with
  | J.obj d =>
    dhas d "functionName" &&
    (match dget d "name" with
     | none => true
     | some (J.s _) => true
     | some _ => false) &&
    fieldWF refListWF d "secrets" && fieldWF refListWF d "configmaps" &&
    fieldWF trigListWF d "triggers"
  | _ => false

/-- A function template whose no-merge fields, if declared, are
well-formed. -/
def tmplWF (fd : List (String × J)) : Bool :=
  fieldWF refListWF fd "secrets" && fieldWF refListWF fd "configmaps" &&
  fieldWF trigListWF fd "triggers"

/-! ## Pure characterization of the loop body -/

/-- Underlying mapping of a document. -/
def objOf (f : J) : List (String × J) :=
  match f with
  | J.obj d => d
  | _ => []

/-- Underlying list of a document. -/
def arrOf (v : J) : List J :=
  match v with
  | J.arr l => l
  | _ => []

/-- The function's short name: its `name` value, defaulting to the
service name. -/
def shortOf (ctx : Ctx) (d : List (String × J)) : String :=
  match dget d "name" with
  | some (J.s sn) => sn
  | _ => ctx.service_name

/-- The generated Function resource name: the service name itself for
the single implicitly named function, `<service>-<short>` otherwise. -/
def funcNameOf (ctx : Ctx) (d : List (String × J)) : String :=
  if shortOf ctx d == ctx.service_name && !(dhas d "name") then ctx.service_name
  else ctx.service_name ++ "-" ++ shortOf ctx d

/-- Normalized `{name, namespace}` reference. -/
def normRef (ns : J) (r : J) : J :=
  match r with
  | J.obj d => J.obj [("name", (dget d "name").getD J.null),
                      ("namespace", dgetD d "namespace" ns)]
  | _ => J.null

/-- The `http` sub-mapping of a trigger entry (`trigger.get("http", {})`). -/
def httpOf (t : J) : List (String × J) :=
  match t with
  | J.obj td =>
    match dgetD td "http" (J.obj []) with
    | J.obj h => h
    | _ => []
  | _ => []

/-- The no-merge selection for a function's secrets. -/
def secretsSel (ctx : Ctx) (d : List (String × J)) : List J :=
  arrOf (resolve_field "secrets" d ctx.function_defaults)

/-- The no-merge selection for a function's configmaps. -/
def configmapsSel (ctx : Ctx) (d : List (String × J)) : List J :=
  arrOf (resolve_field "configmaps" d ctx.function_defaults)

/-- The no-merge selection for a function's triggers. -/
def triggersSel (ctx : Ctx) (d : List (String × J)) : List J :=
  arrOf (resolve_field "triggers" d ctx.function_defaults)

/-- The Function resource the loop body generates for definition `d`. -/
def funcResOf (ctx : Ctx) (d : List (String × J)) : J :=
  generate_function (funcNameOf ctx d) ctx.ns ctx.labels (dget d "description")
    ((dget d "functionName").getD J.null) ctx.package_name ctx.ns
    ctx.env_name ctx.env_ns ((secretsSel ctx d).map (normRef ctx.ns))
    ((configmapsSel ctx d).map (normRef ctx.ns))
    (merge_function_config ctx.function_defaults d)

/-- The HTTPTrigger resource generated for trigger entry `t` of
definition `d`. -/
def trigResOf (ctx : Ctx) (d : List (String × J)) (t : J) : J :=
  generate_http_trigger (funcNameOf ctx d) ctx.ns ctx.labels (funcNameOf ctx d)
    ctx.service_name (shortOf ctx d) (httpOf t)

/-- Everything the loop body appends for one function definition. -/
def blockOf (ctx : Ctx) (f : J) : List J :=
  funcResOf ctx (objOf f) ::
    (triggersSel ctx (objOf f)).map (fun t => trigResOf ctx (objOf f) t)

/-! ## Success lemmas for the loop body -/

/-- A no-merge selection passes `check` whenever both sides' declared
values do and the empty list does. -/
theorem resolve_field_check (check : J → Bool) (key : String)
    (d defaults : List (String × J))
    (h1 : fieldWF check d key = true) (h2 : fieldWF check defaults key = true)
    (h0 : check (J.arr []) = true) :
    check (resolve_field key d defaults) = true := by
  unfold fieldWF at h1 h2
  unfold resolve_field
  cases hd : dget d key with
  | some v => rw [hd] at h1; exact h1
  | none =>
    cases hdef : dget defaults key with
    | some v => rw [hdef] at h2; exact h2
    | none => exact h0

/-- On well-formed reference lists, normalization succeeds and returns
the pointwise-normalized entries. -/
theorem normalize_refs_ok (ns : J) : ∀ l : List J,
    (∀ r ∈ l, refEntryWF r = true) →
    normalize_refs ns l = .ok (l.map (normRef ns))
  | [], _ => rfl
  | r :: rest, h => by
    have hr := h r (List.mem_cons_self r rest)
    have hrest := normalize_refs_ok ns rest (fun x hx => h x (List.mem_cons_of_mem _ hx))
    cases r with
    | obj d =>
      simp only [refEntryWF, dhas] at hr
      cases hnm : dget d "name" with
      | none => rw [hnm] at hr; simp at hr
      | some nm =>
        simp only [normalize_refs, hnm, hrest, List.map_cons, normRef]
        simp
    | s v => simp [refEntryWF] at hr
    | n v => simp [refEntryWF] at hr
    | b v => simp [refEntryWF] at hr
    | null => simp [refEntryWF] at hr
    | arr v => simp [refEntryWF] at hr

/-- On well-formed trigger lists, trigger generation succeeds and
returns one HTTPTrigger per entry, built from its `http` sub-mapping. -/
theorem gen_triggers_ok (ctx : Ctx) (fn short : String) : ∀ ts : List J,
    (∀ t ∈ ts, trigEntryWF t = true) →
    gen_triggers ctx fn short ts = .ok (ts.map (fun t =>
      generate_http_trigger fn ctx.ns ctx.labels fn ctx.service_name short (httpOf t)))
  | [], _ => rfl
  | t :: rest, h => by
    have ht := h t (List.mem_cons_self t rest)
    have hrest := gen_triggers_ok ctx fn short rest
      (fun x hx => h x (List.mem_cons_of_mem _ hx))
    cases t with
    | obj td =>
      simp only [trigEntryWF] at ht
      cases hh : dgetD td "http" (J.obj []) with
      | obj hd =>
        simp only [gen_triggers, hh, hrest, List.map_cons, httpOf]
      | s v => rw [hh] at ht; simp at ht
      | n v => rw [hh] at ht; simp at ht
      | b v => rw [hh] at ht; simp at ht
      | null => rw [hh] at ht; simp at ht
      | arr v => rw [hh] at ht; simp at ht
    | s v => simp [trigEntryWF] at ht
    | n v => simp [trigEntryWF] at ht
    | b v => simp [trigEntryWF] at ht
    | null => simp [trigEntryWF] at ht
    | arr v => simp [trigEntryWF] at ht

/-- A value passing `refListWF` is a list of well-formed references. -/
theorem refListWF_arr {v : J} (h : refListWF v = true) :
    ∃ l, v = J.arr l ∧ ∀ r ∈ l, refEntryWF r = true := by
  cases v with
  | arr l =>
    refine ⟨l, rfl, ?_⟩
    simpa [refListWF, List.all_eq_true] using h
  | s a => simp [refListWF] at h
  | n a => simp [refListWF] at h
  | b a => simp [refListWF] at h
  | null => simp [refListWF] at h
  | obj a => simp [refListWF] at h

/-- A value passing `trigListWF` is a list of well-formed triggers. -/
theorem trigListWF_arr {v : J} (h : trigListWF v = true) :
    ∃ l, v = J.arr l ∧ ∀ t ∈ l, trigEntryWF t = true := by
  cases v with
  | arr l =>
    refine ⟨l, rfl, ?_⟩
    simpa [trigListWF, List.all_eq_true] using h
  | s a => simp [trigListWF] at h
  | n a => simp [trigListWF] at h
  | b a => simp [trigListWF] at h
  | null => simp [trigListWF] at h
  | obj a => simp [trigListWF] at h

/-- On a well-formed function definition (and template) the loop body
succeeds and appends exactly one Function followed by one HTTPTrigger
per selected trigger entry. -/
theorem process_one_ok (ctx : Ctx) (f : J) (hf : funcWF f = true)
    (htm : tmplWF ctx.function_defaults = true) :
    process_one ctx f = .ok (blockOf ctx f) := by
  cases f with
  | obj d =>
    simp only [funcWF, Bool.and_eq_true] at hf
    obtain ⟨⟨⟨⟨hfn, hname⟩, hsec⟩, hcm⟩, htr⟩ := hf
    simp only [tmplWF, Bool.and_eq_true] at htm
    obtain ⟨⟨tsec, tcm⟩, ttr⟩ := htm
    have hsecR := resolve_field_check refListWF "secrets" d ctx.function_defaults
      hsec tsec (by simp [refListWF])
    obtain ⟨ls, hls, hlsw⟩ := refListWF_arr hsecR
    have hcmR := resolve_field_check refListWF "configmaps" d ctx.function_defaults
      hcm tcm (by simp [refListWF])
    obtain ⟨lc, hlc, hlcw⟩ := refListWF_arr hcmR
    have htrR := resolve_field_check trigListWF "triggers" d ctx.function_defaults
      htr ttr (by simp [trigListWF])
    obtain ⟨lt, hlt, hltw⟩ := trigListWF_arr htrR
    obtain ⟨fnv, hfnv⟩ := Option.isSome_iff_exists.mp hfn
    cases hnm : dget d "name" with
    | none =>
      have hdh : dhas d "name" = false := by simp [dhas, hnm]
      simp only [process_one, hnm, hls, hlc, hlt, asArr,
        normalize_refs_ok ctx.ns ls hlsw, normalize_refs_ok ctx.ns lc hlcw, hfnv,
        gen_triggers_ok ctx _ _ lt hltw,
        blockOf, objOf, funcResOf, trigResOf, secretsSel, configmapsSel, triggersSel,
        shortOf, funcNameOf, hdh, arrOf]
      simp [hnm]
    | some nm =>
      rw [hnm] at hname
      cases nm with
      | s sn =>
        have hdh : dhas d "name" = true := by simp [dhas, hnm]
        simp only [process_one, hnm, hls, hlc, hlt, asArr,
          normalize_refs_ok ctx.ns ls hlsw, normalize_refs_ok ctx.ns lc hlcw, hfnv,
          gen_triggers_ok ctx _ _ lt hltw,
          blockOf, objOf, funcResOf, trigResOf, secretsSel, configmapsSel, triggersSel,
          shortOf, funcNameOf, hdh, arrOf]
        simp [hnm]
      | n a => simp at hname
      | b a => simp at hname
      | null => simp at hname
      | arr a => simp at hname
      | obj a => simp at hname
  | s a => simp [funcWF] at hf
  | n a => simp [funcWF] at hf
  | b a => simp [funcWF] at hf
  | null => simp [funcWF] at hf
  | arr a => simp [funcWF] at hf

/-- The whole loop, on well-formed inputs: the concatenation of the
per-function blocks, in order. -/
theorem run_functions_ok (ctx : Ctx) (htm : tmplWF ctx.function_defaults = true) :
    ∀ l : List J, (∀ f ∈ l, funcWF f = true) →
    run_functions ctx l = .ok (l.flatMap (blockOf ctx))
  | [], _ => rfl
  | f :: fs, h => by
    have h1 := process_one_ok ctx f (h f (List.mem_cons_self f fs)) htm
    have h2 := run_functions_ok ctx htm fs (fun x hx => h x (List.mem_cons_of_mem _ hx))
    simp only [run_functions, h1, h2, List.flatMap_cons]

/-- Every successfully generated Package has kind `Package` and carries
the requested name. -/
theorem generate_package_shape (P : ZipPrims) (dd dt : Nat) (name ns labels : J)
    (pspec : List (String × J)) (en ens : J) (bc : Option J) (pkg : J)
    (h : generate_package P dd dt name ns labels pspec en ens bc = .ok pkg) :
    jGet pkg "kind" = some (J.s "Package") ∧ jGet2 pkg "metadata" "name" = some name := by
  unfold generate_package at h
  cases hs : package_source_spec P dd dt pspec en ens with
  | error e => rw [hs] at h; simp at h
  | ok sp =>
    rw [hs] at h
    simp only [] at h
    have : pkg = J.obj [("apiVersion", J.s "fission.io/v1"), ("kind", J.s "Package"),
      ("metadata", J.obj (if pyTruthy labels = true
        then [("name", name), ("namespace", ns)] ++ [("labels", labels)]
        else [("name", name), ("namespace", ns)])),
      ("spec", J.obj (match bc with
        | some bcv => if pyTruthy bcv = true then sp ++ [("buildcmd", bcv)] else sp
        | none => sp)),
      ("status", J.obj [("buildstatus", J.s "pending")])] := by
      cases bc with
      | none => exact (Except.ok.inj h).symm
      | some bcv => exact (Except.ok.inj h).symm
    rw [this]
    by_cases hl : pyTruthy labels = true
    · simp [hl, jGet, jGet2, dget]
    · simp [hl, jGet, jGet2, dget]

/-- `transform` on a well-formed Service that passes both validations:
success, with exactly the Package followed by the per-function blocks
appended to the input items. -/
theorem transform_ok (P : ZipPrims) (dd dt : Nat) (krm : Krm) (ctx : Ctx)
    (hctx : getCtx krm.functionConfig = some ctx) (pkg : J)
    (hpkg : generate_package P dd dt ctx.package_name ctx.ns ctx.labels
      ctx.package_spec ctx.env_name ctx.env_ns (dget ctx.package_spec "buildcmd") = .ok pkg)
    (l : List J) (hl : ctx.functions_val = some (J.arr l)) (hne : l ≠ [])
    (hval : ¬(0 < unnamedCount l ∧ 1 < l.length))
    (hfs : ∀ f ∈ l, funcWF f = true) (htm : tmplWF ctx.function_defaults = true) :
    transform P dd dt krm =
      .ok ⟨krm.functionConfig, krm.items ++ pkg :: l.flatMap (blockOf ctx)⟩ := by
  have hempty : l.isEmpty = false := by
    cases l with
    | nil => exact absurd rfl hne
    | cons a as => rfl
  unfold transform
  simp only [hctx, hpkg, hl, hempty, Bool.false_eq_true, if_false]
  rw [if_neg hval, run_functions_ok ctx htm l hfs]
  simp

/-- `transform` on an input failing the `spec.functions` validations:
the abort happens after the Package has been generated and appended,
so the error state is the input plus exactly that one resource. -/
theorem transform_validation_error (P : ZipPrims) (dd dt : Nat) (krm : Krm) (ctx : Ctx)
    (hctx : getCtx krm.functionConfig = some ctx) (pkg : J)
    (hpkg : generate_package P dd dt ctx.package_name ctx.ns ctx.labels
      ctx.package_spec ctx.env_name ctx.env_ns (dget ctx.package_spec "buildcmd") = .ok pkg)
    (h : ctx.functions_val = none ∨ ctx.functions_val = some (J.arr []) ∨
         ∃ l, ctx.functions_val = some (J.arr l) ∧ 2 ≤ unnamedCount l) :
    ∃ e, transform P dd dt krm =
        .error (e, ⟨krm.functionConfig, krm.items ++ [pkg]⟩) ∧
      (e = emptyFnMsg ∨ e = multiFnMsg) := by
  unfold transform
  rcases h with h | h | ⟨l, h, hcnt⟩
  · refine ⟨emptyFnMsg, ?_, Or.inl rfl⟩
    simp only [hctx, hpkg, h]
  · refine ⟨emptyFnMsg, ?_, Or.inl rfl⟩
    simp only [hctx, hpkg, h, List.isEmpty_nil, if_true]
  · have hlen : 2 ≤ l.length := le_trans hcnt (List.countP_le_length _)
    have hempty : l.isEmpty = false := by
      cases l with
      | nil => simp [unnamedCount] at hcnt
      | cons a as => rfl
    refine ⟨multiFnMsg, ?_, Or.inr rfl⟩
    simp only [hctx, hpkg, h, hempty, Bool.false_eq_true, if_false]
    rw [if_pos ⟨by omega, by omega⟩]

/-- `transform` when at least one of several functions is unnamed:
the ambiguous-naming abort, again right after the Package append. -/
theorem transform_multi_unnamed_error (P : ZipPrims) (dd dt : Nat) (krm : Krm) (ctx : Ctx)
    (hctx : getCtx krm.functionConfig = some ctx) (pkg : J)
    (hpkg : generate_package P dd dt ctx.package_name ctx.ns ctx.labels
      ctx.package_spec ctx.env_name ctx.env_ns (dget ctx.package_spec "buildcmd") = .ok pkg)
    (l : List J) (hl : ctx.functions_val = some (J.arr l))
    (hlen : 2 ≤ l.length) (hun : 1 ≤ unnamedCount l) :
    transform P dd dt krm =
      .error (multiFnMsg, ⟨krm.functionConfig, krm.items ++ [pkg]⟩) := by
  have hempty : l.isEmpty = false := by
    cases l with
    | nil => simp at hlen
    | cons a as => rfl
  unfold transform
  simp only [hctx, hpkg, hl, hempty, Bool.false_eq_true, if_false]
  rw [if_pos ⟨by omega, by omega⟩]

/-- Kind and name of every generated Function resource. -/
theorem generate_function_kind_name (name : String) (ns labels : J)
    (description : Option J) (function_name package_name package_ns env_name env_ns : J)
    (secrets configmaps : List J) (func_config : List (String × J)) :
    jGet (generate_function name ns labels description function_name package_name
      package_ns env_name env_ns secrets configmaps func_config) "kind" =
        some (J.s "Function") ∧
    jGet2 (generate_function name ns labels description function_name package_name
      package_ns env_name env_ns secrets configmaps func_config) "metadata" "name" =
        some (J.s name) := by
  unfold generate_function
  constructor
  · simp [jGet, dget]
  · rcases description with _ | dsc
    · by_cases hl : pyTruthy labels = true <;> simp [hl, jGet2, jGet, dget]
    · by_cases hl : pyTruthy labels = true <;>
        by_cases hd : pyTruthy dsc = true <;>
          simp [hl, hd, jGet2, jGet, dget]

/-- Kind and name of every generated HTTPTrigger resource. -/
theorem generate_http_trigger_kind_name (name : String) (ns labels : J)
    (function_name service_name short : String) (trigger_spec : List (String × J)) :
    jGet (generate_http_trigger name ns labels function_name service_name short
      trigger_spec) "kind" = some (J.s "HTTPTrigger") ∧
    jGet2 (generate_http_trigger name ns labels function_name service_name short
      trigger_spec) "metadata" "name" = some (J.s name) := by
  unfold generate_http_trigger
  constructor
  · simp [jGet, dget]
  · by_cases hl : pyTruthy labels = true <;> simp [hl, jGet2, jGet, dget]

/-! ## Claim C1 -/

/-- C1 (amended): when the Service fails the `spec.functions`
validation (empty or missing list, or more than one unnamed function),
`transform` aborts with the validation message — but only after the
Package resource has already been generated and appended, so the error
state is the input document with exactly that one Package added to
`items` (no Function or HTTPTrigger is appended, and `functionConfig`
is untouched). -/
theorem validation_abort_appends_only_package (P : ZipPrims) (dd dt : Nat)
    (krm : Krm) (ctx : Ctx) (hctx : getCtx krm.functionConfig = some ctx) (pkg : J)
    (hpkg : generate_package P dd dt ctx.package_name ctx.ns ctx.labels
      ctx.package_spec ctx.env_name ctx.env_ns (dget ctx.package_spec "buildcmd") = .ok pkg)
    (h : ctx.functions_val = none ∨ ctx.functions_val = some (J.arr []) ∨
         ∃ l, ctx.functions_val = some (J.arr l) ∧ 2 ≤ unnamedCount l) :
    ∃ e, transform P dd dt krm =
        .error (e, ⟨krm.functionConfig, krm.items ++ [pkg]⟩) ∧
      (e = emptyFnMsg ∨ e = multiFnMsg) ∧
      jGet pkg "kind" = some (J.s "Package") := by
  obtain ⟨e, he, hor⟩ := transform_validation_error P dd dt krm ctx hctx pkg hpkg h
  exact ⟨e, he, hor,
    (generate_package_shape P dd dt ctx.package_name ctx.ns ctx.labels
      ctx.package_spec ctx.env_name ctx.env_ns (dget ctx.package_spec "buildcmd")
      pkg hpkg).1⟩

/-- A Service whose `spec.functions` is the empty list. -/
def svcC1 : J := J.obj
  [("apiVersion", J.s "serverless.krm.kubed.io/v1"), ("kind", J.s "Service"),
   ("metadata", J.obj [("name", J.s "svc")]),
   ("spec", J.obj [("environment", J.obj [("name", J.s "env")]),
                   ("functions", J.arr [])])]

/-- The ResourceList wrapping `svcC1`, with no prior items. -/
def krmC1 : Krm := ⟨svcC1, []⟩

/-- The Package `transform` generates for `svcC1` before validating. -/
def pkgC1 : J := J.obj
  [("apiVersion", J.s "fission.io/v1"), ("kind", J.s "Package"),
   ("metadata", J.obj [("name", J.s "svc"), ("namespace", J.s "default")]),
   ("spec", J.obj [("environment", J.obj [("name", J.s "env"),
                                          ("namespace", J.s "default")])]),
   ("status", J.obj [("buildstatus", J.s "pending")])]

/-- C1 counterexample: on this Service with an empty function list,
`transform` does abort — but the items list of the aborted state holds
the generated Package, so "no generated resource is appended to the
items list, and the input structure is left unchanged" is false. -/
theorem validation_abort_counterexample :
    transform P0 0 0 krmC1 = .error (emptyFnMsg, ⟨svcC1, [pkgC1]⟩) ∧
    krmC1.items = [] ∧
    jGet pkgC1 "kind" = some (J.s "Package") :=
  ⟨rfl, rfl, rfl⟩

/-- The context `getCtx` extracts from `svcC1`. -/
def ctxC1 : Ctx :=
  ⟨"svc", J.s "default", J.obj [], [], J.s "svc", J.s "env", J.s "default", [],
   some (J.arr [])⟩

theorem validation_abort_appends_only_package_witness :
    ∃ e, transform P0 0 0 krmC1 =
        .error (e, ⟨krmC1.functionConfig, krmC1.items ++ [pkgC1]⟩) ∧
      (e = emptyFnMsg ∨ e = multiFnMsg) ∧
      jGet pkgC1 "kind" = some (J.s "Package") :=
  validation_abort_appends_only_package P0 0 0 krmC1 ctxC1 rfl pkgC1 rfl
    (Or.inr (Or.inl rfl))

/-! ## Claim C3 -/

/-- C3 (amended): (a) when the functions list is a single function
definition lacking an explicit name, `transform` succeeds and the
generated Function resource's name is exactly the service name; (b) for
every list of two or more functions of which at least one (in
particular: more than one) lacks a name, `transform` fails with the
ambiguous-naming validation error. -/
theorem single_unnamed_function_naming :
    (∀ (P : ZipPrims) (dd dt : Nat) (krm : Krm) (ctx : Ctx) (f pkg : J),
      getCtx krm.functionConfig = some ctx →
      generate_package P dd dt ctx.package_name ctx.ns ctx.labels ctx.package_spec
        ctx.env_name ctx.env_ns (dget ctx.package_spec "buildcmd") = .ok pkg →
      ctx.functions_val = some (J.arr [f]) →
      hasNameKey f = false →
      funcWF f = true → tmplWF ctx.function_defaults = true →
      ∃ out, transform P dd dt krm =
          .ok ⟨krm.functionConfig, krm.items ++ pkg :: out⟩ ∧
        out.head? = some (funcResOf ctx (objOf f)) ∧
        jGet (funcResOf ctx (objOf f)) "kind" = some (J.s "Function") ∧
        jGet2 (funcResOf ctx (objOf f)) "metadata" "name" =
          some (J.s ctx.service_name)) ∧
    (∀ (P : ZipPrims) (dd dt : Nat) (krm : Krm) (ctx : Ctx) (l : List J) (pkg : J),
      getCtx krm.functionConfig = some ctx →
      generate_package P dd dt ctx.package_name ctx.ns ctx.labels ctx.package_spec
        ctx.env_name ctx.env_ns (dget ctx.package_spec "buildcmd") = .ok pkg →
      ctx.functions_val = some (J.arr l) → 2 ≤ l.length → 1 ≤ unnamedCount l →
      transform P dd dt krm =
        .error (multiFnMsg, ⟨krm.functionConfig, krm.items ++ [pkg]⟩)) := by
  constructor
  · intro P dd dt krm ctx f pkg hctx hpkg hl hnm hwf htm
    have hval : ¬(0 < unnamedCount [f] ∧ 1 < ([f] : List J).length) := by simp
    have hfs : ∀ x ∈ ([f] : List J), funcWF x = true := by
      intro x hx
      rw [List.mem_singleton] at hx
      rw [hx]
      exact hwf
    have htr := transform_ok P dd dt krm ctx hctx pkg hpkg [f] hl
      (by simp) hval hfs htm
    have hname : funcNameOf ctx (objOf f) = ctx.service_name := by
      cases f with
      | obj d =>
        have hdh : dhas d "name" = false := hnm
        have hdg : dget d "name" = none := by
          have := hdh
          unfold dhas at this
          exact Option.not_isSome_iff_eq_none.mp (by simp [this])
        simp [funcNameOf, shortOf, objOf, hdg, hdh]
      | s a => simp [funcWF] at hwf
      | n a => simp [funcWF] at hwf
      | b a => simp [funcWF] at hwf
      | null => simp [funcWF] at hwf
      | arr a => simp [funcWF] at hwf
    refine ⟨[f].flatMap (blockOf ctx), htr, ?_, ?_, ?_⟩
    · simp [blockOf]
    · exact (generate_function_kind_name (funcNameOf ctx (objOf f)) ctx.ns ctx.labels
        (dget (objOf f) "description") ((dget (objOf f) "functionName").getD J.null)
        ctx.package_name ctx.ns ctx.env_name ctx.env_ns
        ((secretsSel ctx (objOf f)).map (normRef ctx.ns))
        ((configmapsSel ctx (objOf f)).map (normRef ctx.ns))
        (merge_function_config ctx.function_defaults (objOf f))).1
    · rw [← hname]
      exact (generate_function_kind_name (funcNameOf ctx (objOf f)) ctx.ns ctx.labels
        (dget (objOf f) "description") ((dget (objOf f) "functionName").getD J.null)
        ctx.package_name ctx.ns ctx.env_name ctx.env_ns
        ((secretsSel ctx (objOf f)).map (normRef ctx.ns))
        ((configmapsSel ctx (objOf f)).map (normRef ctx.ns))
        (merge_function_config ctx.function_defaults (objOf f))).2
  · intro P dd dt krm ctx l pkg hctx hpkg hl hlen hun
    exact transform_multi_unnamed_error P dd dt krm ctx hctx pkg hpkg l hl hlen hun

/-- Two functions, exactly one of which lacks an explicit name. -/
def fnsC3 : List J :=
  [J.obj [("functionName", J.s "m.a")],
   J.obj [("name", J.s "b"), ("functionName", J.s "m.b")]]

/-- A Service carrying `fnsC3`. -/
def svcC3 : J := J.obj
  [("apiVersion", J.s "serverless.krm.kubed.io/v1"), ("kind", J.s "Service"),
   ("metadata", J.obj [("name", J.s "svc")]),
   ("spec", J.obj [("environment", J.obj [("name", J.s "env")]),
                   ("functions", J.arr fnsC3)])]

/-- The ResourceList wrapping `svcC3`. -/
def krmC3 : Krm := ⟨svcC3, []⟩

/-- C3 counterexample: this Service's functions list contains exactly
one function lacking an explicit name, yet `transform` fails — it does
not succeed as the claim states, because the code rejects any unnamed
function as soon as the list has two or more entries. -/
theorem single_unnamed_function_counterexample :
    unnamedCount fnsC3 = 1 ∧ fnsC3.length = 2 ∧
    transform P0 0 0 krmC3 = .error (multiFnMsg, ⟨svcC3, [pkgC1]⟩) :=
  ⟨rfl, rfl, rfl⟩

/-- The context `getCtx` extracts from `svcC3`. -/
def ctxC3 : Ctx :=
  ⟨"svc", J.s "default", J.obj [], [], J.s "svc", J.s "env", J.s "default", [],
   some (J.arr fnsC3)⟩

/-- A single unnamed function definition. -/
def fnW3 : J := J.obj [("functionName", J.s "m.h")]

/-- A Service with `fnW3` as its only function. -/
def svcW3 : J := J.obj
  [("apiVersion", J.s "serverless.krm.kubed.io/v1"), ("kind", J.s "Service"),
   ("metadata", J.obj [("name", J.s "hello")]),
   ("spec", J.obj [("environment", J.obj [("name", J.s "env")]),
                   ("functions", J.arr [fnW3])])]

/-- The ResourceList wrapping `svcW3`. -/
def krmW3 : Krm := ⟨svcW3, []⟩

/-- The context `getCtx` extracts from `svcW3`. -/
def ctxW3 : Ctx :=
  ⟨"hello", J.s "default", J.obj [], [], J.s "hello", J.s "env", J.s "default", [],
   some (J.arr [fnW3])⟩

/-- The Package `transform` generates for `svcW3`. -/
def pkgW3 : J := J.obj
  [("apiVersion", J.s "fission.io/v1"), ("kind", J.s "Package"),
   ("metadata", J.obj [("name", J.s "hello"), ("namespace", J.s "default")]),
   ("spec", J.obj [("environment", J.obj [("name", J.s "env"),
                                          ("namespace", J.s "default")])]),
   ("status", J.obj [("buildstatus", J.s "pending")])]

theorem single_unnamed_function_naming_witness :
    (∃ out, transform P0 0 0 krmW3 =
        .ok ⟨krmW3.functionConfig, krmW3.items ++ pkgW3 :: out⟩ ∧
      out.head? = some (funcResOf ctxW3 (objOf fnW3)) ∧
      jGet (funcResOf ctxW3 (objOf fnW3)) "kind" = some (J.s "Function") ∧
      jGet2 (funcResOf ctxW3 (objOf fnW3)) "metadata" "name" =
        some (J.s ctxW3.service_name)) ∧
    transform P0 0 0 krmC3 =
      .error (multiFnMsg, ⟨krmC3.functionConfig, krmC3.items ++ [pkgC1]⟩) :=
  ⟨single_unnamed_function_naming.1 P0 0 0 krmW3 ctxW3 fnW3 pkgW3 rfl rfl rfl rfl
     (by decide) rfl,
   single_unnamed_function_naming.2 P0 0 0 krmC3 ctxC3 fnsC3 pkgC1 rfl rfl rfl
     (by decide) (by decide)⟩

/-! ## Claim C8 -/

/-- Lookup through an append: the left side wins when it has the key. -/
theorem dget_append (a b : List (String × J)) (k : String) :
    dget (a ++ b) k = match dget a k with
      | some v => some v
      | none => dget b k := by
  induction a with
  | nil => rfl
  | cons kv rest ih =>
    obtain ⟨k0, w⟩ := kv
    by_cases h : k0 = k <;> simp [dget, h, ih]

/-- The optional-field copy loop of `generate_function` never changes
the binding of a key outside its field list. -/
theorem dget_foldl_fields (fc : List (String × J)) (k : String) :
    ∀ (ks : List String) (acc : List (String × J)), k ∉ ks →
      dget (List.foldl (fun acc fld =>
        match dget fc fld with
        | some v => acc ++ [(fld, v)]
        | none => acc) acc ks) k = dget acc k
  | [], _, _ => rfl
  | fld :: ks, acc, h => by
    have hne : fld ≠ k := fun hh => h (hh ▸ List.mem_cons_self _ _)
    have hmem : k ∉ ks := fun hh => h (List.mem_cons_of_mem _ hh)
    rw [List.foldl_cons, dget_foldl_fields fc k ks _ hmem]
    cases hv : dget fc fld with
    | none => rfl
    | some v =>
      rw [dget_append]
      cases dget acc k <;> simp [dget, hne]

/-- `jGet2 _ "spec" k` on a generated Function reads the built spec. -/
theorem jGet2_generate_function_spec (name : String) (ns labels : J)
    (description : Option J) (function_name package_name package_ns env_name env_ns : J)
    (secrets configmaps : List J) (func_config : List (String × J)) (k : String) :
    jGet2 (generate_function name ns labels description function_name package_name
      package_ns env_name env_ns secrets configmaps func_config) "spec" k =
    dget (function_spec function_name package_name package_ns env_name env_ns
      secrets configmaps func_config) k := by
  unfold generate_function
  simp [jGet2, jGet, dget]

/-- The `secrets`/`configmaps` bindings of a generated Function spec:
exactly the optional entries attached for non-empty lists, nothing
else. -/
theorem dget_generate_function_spec (name : String) (ns labels : J)
    (description : Option J) (function_name package_name package_ns env_name env_ns : J)
    (secrets configmaps : List J) (func_config : List (String × J)) (k : String)
    (hk1 : k ∉ optionalFields) (hk2 : k ≠ "InvokeStrategy")
    (hk3 : k ≠ "environment") (hk4 : k ≠ "package") :
    jGet2 (generate_function name ns labels description function_name package_name
      package_ns env_name env_ns secrets configmaps func_config) "spec" k =
    dget ((if secrets.isEmpty then [] else [("secrets", J.arr secrets)]) ++
          (if configmaps.isEmpty then [] else [("configmaps", J.arr configmaps)])) k := by
  rw [jGet2_generate_function_spec]
  unfold function_spec
  rw [dget_foldl_fields func_config k optionalFields _ hk1, dget_append]
  have e2 : ¬("InvokeStrategy" = k) := fun hh => hk2 hh.symm
  have e3 : ¬("environment" = k) := fun hh => hk3 hh.symm
  have e4 : ¬("package" = k) := fun hh => hk4 hh.symm
  by_cases hse : secrets.isEmpty = true <;> by_cases hcm : configmaps.isEmpty = true <;>
    simp only [hse, hcm, if_true, Bool.false_eq_true, if_false] <;>
      by_cases hsk : "secrets" = k <;> by_cases hck : "configmaps" = k <;>
        simp [dget_append, dget, e2, e3, e4, hsk, hck]


/-- The optional `secrets` entry never binds `configmaps`. -/
theorem dget_secrets_entry_cm (b : Bool) (v : J) :
    dget (if b = true then [] else [("secrets", v)]) "configmaps" = none := by
  cases b <;> simp [dget]

/-- The optional `configmaps` entry never binds `secrets`. -/
theorem dget_cm_entry_secrets (b : Bool) (v : J) :
    dget (if b = true then [] else [("configmaps", v)]) "secrets" = none := by
  cases b <;> simp [dget]

/-- C8: in a (single-function) Service expansion, the three no-merge
fields follow override-or-default: a function declaring `secrets` /
`configmaps` / `triggers` — even as the empty list — has exactly that
value used and the template default ignored (an explicit empty list
yields a Function with no such field at all, and no HTTPTriggers);
a function omitting the field uses the template's declared value; with
neither declared the field is empty. -/
theorem no_merge_override_or_default (P : ZipPrims) (dd dt : Nat) (krm : Krm)
    (ctx : Ctx) (f pkg : J)
    (hctx : getCtx krm.functionConfig = some ctx)
    (hpkg : generate_package P dd dt ctx.package_name ctx.ns ctx.labels ctx.package_spec
      ctx.env_name ctx.env_ns (dget ctx.package_spec "buildcmd") = .ok pkg)
    (hl : ctx.functions_val = some (J.arr [f]))
    (hwf : funcWF f = true) (htm : tmplWF ctx.function_defaults = true) :
    ∃ trigs, transform P dd dt krm = .ok ⟨krm.functionConfig,
        krm.items ++ pkg :: funcResOf ctx (objOf f) :: trigs⟩ ∧
      (∀ v, dget (objOf f) "secrets" = some (J.arr v) →
        jGet2 (funcResOf ctx (objOf f)) "spec" "secrets" =
          (if v.isEmpty then none else some (J.arr (v.map (normRef ctx.ns))))) ∧
      (dget (objOf f) "secrets" = none →
        ∀ w, dget ctx.function_defaults "secrets" = some (J.arr w) →
        jGet2 (funcResOf ctx (objOf f)) "spec" "secrets" =
          (if w.isEmpty then none else some (J.arr (w.map (normRef ctx.ns))))) ∧
      (dget (objOf f) "secrets" = none → dget ctx.function_defaults "secrets" = none →
        jGet2 (funcResOf ctx (objOf f)) "spec" "secrets" = none) ∧
      (∀ v, dget (objOf f) "configmaps" = some (J.arr v) →
        jGet2 (funcResOf ctx (objOf f)) "spec" "configmaps" =
          (if v.isEmpty then none else some (J.arr (v.map (normRef ctx.ns))))) ∧
      (dget (objOf f) "configmaps" = none →
        ∀ w, dget ctx.function_defaults "configmaps" = some (J.arr w) →
        jGet2 (funcResOf ctx (objOf f)) "spec" "configmaps" =
          (if w.isEmpty then none else some (J.arr (w.map (normRef ctx.ns))))) ∧
      (dget (objOf f) "configmaps" = none →
        dget ctx.function_defaults "configmaps" = none →
        jGet2 (funcResOf ctx (objOf f)) "spec" "configmaps" = none) ∧
      (∀ ts, dget (objOf f) "triggers" = some (J.arr ts) → trigs.length = ts.length) ∧
      (dget (objOf f) "triggers" = none →
        ∀ ts, dget ctx.function_defaults "triggers" = some (J.arr ts) →
          trigs.length = ts.length) ∧
      (dget (objOf f) "triggers" = none → dget ctx.function_defaults "triggers" = none →
        trigs = []) := by
  have hval : ¬(0 < unnamedCount [f] ∧ 1 < ([f] : List J).length) := by simp
  have hfs : ∀ x ∈ ([f] : List J), funcWF x = true := by
    intro x hx
    rw [List.mem_singleton] at hx
    rw [hx]
    exact hwf
  have htr := transform_ok P dd dt krm ctx hctx pkg hpkg [f] hl (by simp) hval hfs htm
  refine ⟨(triggersSel ctx (objOf f)).map (fun t => trigResOf ctx (objOf f) t),
    ?_, ?_, ?_, ?_, ?_, ?_, ?_, ?_, ?_, ?_⟩
  · rw [htr]
    simp [blockOf]
  · intro v hv
    simp only [funcResOf]
    rw [dget_generate_function_spec _ _ _ _ _ _ _ _ _ _ _ _ "secrets"
      (by decide) (by decide) (by decide) (by decide)]
    have hsel : secretsSel ctx (objOf f) = v := by
      simp [secretsSel, resolve_field, hv, arrOf]
    rw [hsel]
    cases v with
    | nil => simp [dget_append, dget, dget_secrets_entry_cm, dget_cm_entry_secrets]
    | cons a as =>
      simp only [List.map_cons, List.isEmpty_cons, Bool.false_eq_true, if_false]
      simp [dget_append, dget, dget_secrets_entry_cm, dget_cm_entry_secrets]
  · intro hnone w hw
    simp only [funcResOf]
    rw [dget_generate_function_spec _ _ _ _ _ _ _ _ _ _ _ _ "secrets"
      (by decide) (by decide) (by decide) (by decide)]
    have hsel : secretsSel ctx (objOf f) = w := by
      simp [secretsSel, resolve_field, hnone, hw, arrOf]
    rw [hsel]
    cases w with
    | nil => simp [dget_append, dget, dget_secrets_entry_cm, dget_cm_entry_secrets]
    | cons a as =>
      simp only [List.map_cons, List.isEmpty_cons, Bool.false_eq_true, if_false]
      simp [dget_append, dget, dget_secrets_entry_cm, dget_cm_entry_secrets]
  · intro hnone hnone2
    simp only [funcResOf]
    rw [dget_generate_function_spec _ _ _ _ _ _ _ _ _ _ _ _ "secrets"
      (by decide) (by decide) (by decide) (by decide)]
    have hsel : secretsSel ctx (objOf f) = [] := by
      simp [secretsSel, resolve_field, hnone, hnone2, arrOf]
    rw [hsel]
    simp [dget_append, dget, dget_secrets_entry_cm, dget_cm_entry_secrets]
  · intro v hv
    simp only [funcResOf]
    rw [dget_generate_function_spec _ _ _ _ _ _ _ _ _ _ _ _ "configmaps"
      (by decide) (by decide) (by decide) (by decide)]
    have hsel : configmapsSel ctx (objOf f) = v := by
      simp [configmapsSel, resolve_field, hv, arrOf]
    rw [hsel]
    cases v with
    | nil => simp [dget_append, dget, dget_secrets_entry_cm, dget_cm_entry_secrets]
    | cons a as =>
      simp only [List.map_cons, List.isEmpty_cons, Bool.false_eq_true, if_false]
      simp [dget_append, dget, dget_secrets_entry_cm, dget_cm_entry_secrets]
  · intro hnone w hw
    simp only [funcResOf]
    rw [dget_generate_function_spec _ _ _ _ _ _ _ _ _ _ _ _ "configmaps"
      (by decide) (by decide) (by decide) (by decide)]
    have hsel : configmapsSel ctx (objOf f) = w := by
      simp [configmapsSel, resolve_field, hnone, hw, arrOf]
    rw [hsel]
    cases w with
    | nil => simp [dget_append, dget, dget_secrets_entry_cm, dget_cm_entry_secrets]
    | cons a as =>
      simp only [List.map_cons, List.isEmpty_cons, Bool.false_eq_true, if_false]
      simp [dget_append, dget, dget_secrets_entry_cm, dget_cm_entry_secrets]
  · intro hnone hnone2
    simp only [funcResOf]
    rw [dget_generate_function_spec _ _ _ _ _ _ _ _ _ _ _ _ "configmaps"
      (by decide) (by decide) (by decide) (by decide)]
    have hsel : configmapsSel ctx (objOf f) = [] := by
      simp [configmapsSel, resolve_field, hnone, hnone2, arrOf]
    rw [hsel]
    simp [dget_append, dget, dget_secrets_entry_cm, dget_cm_entry_secrets]
  · intro ts hts
    have hsel : triggersSel ctx (objOf f) = ts := by
      simp [triggersSel, resolve_field, hts, arrOf]
    rw [hsel, List.length_map]
  · intro hnone ts hts
    have hsel : triggersSel ctx (objOf f) = ts := by
      simp [triggersSel, resolve_field, hnone, hts, arrOf]
    rw [hsel, List.length_map]
  · intro hnone hnone2
    have hsel : triggersSel ctx (objOf f) = [] := by
      simp [triggersSel, resolve_field, hnone, hnone2, arrOf]
    rw [hsel]
    rfl

/-- A function template declaring non-empty secrets, configmaps and one
trigger. -/
def tmplC8 : List (String × J) :=
  [("secrets", J.arr [J.obj [("name", J.s "tmplsec")]]),
   ("configmaps", J.arr [J.obj [("name", J.s "tmplcm")]]),
   ("triggers", J.arr [J.obj []])]

/-- A function declaring `secrets: []` explicitly and omitting
configmaps and triggers. -/
def fnC8 : J := J.obj [("functionName", J.s "m.h"), ("secrets", J.arr [])]

/-- A Service combining `tmplC8` and `fnC8`. -/
def svcC8 : J := J.obj
  [("apiVersion", J.s "serverless.krm.kubed.io/v1"), ("kind", J.s "Service"),
   ("metadata", J.obj [("name", J.s "svc")]),
   ("spec", J.obj [("environment", J.obj [("name", J.s "env")]),
                   ("functionTemplate", J.obj tmplC8),
                   ("functions", J.arr [fnC8])])]

/-- The ResourceList wrapping `svcC8`. -/
def krmC8 : Krm := ⟨svcC8, []⟩

/-- The context `getCtx` extracts from `svcC8`. -/
def ctxC8 : Ctx :=
  ⟨"svc", J.s "default", J.obj [], [], J.s "svc", J.s "env", J.s "default", tmplC8,
   some (J.arr [fnC8])⟩

theorem no_merge_override_or_default_witness :
    ∃ trigs, transform P0 0 0 krmC8 = .ok ⟨krmC8.functionConfig,
        krmC8.items ++ pkgC1 :: funcResOf ctxC8 (objOf fnC8) :: trigs⟩ ∧
      jGet2 (funcResOf ctxC8 (objOf fnC8)) "spec" "secrets" = none ∧
      jGet2 (funcResOf ctxC8 (objOf fnC8)) "spec" "configmaps" =
        some (J.arr [J.obj [("name", J.s "tmplcm"), ("namespace", J.s "default")]]) ∧
      trigs.length = 1 := by
  obtain ⟨trigs, h1, h2, h3, h4, h5, h6, h7, h8, h9, h10⟩ :=
    no_merge_override_or_default P0 0 0 krmC8 ctxC8 fnC8 pkgC1 rfl rfl rfl
      (by decide) (by decide)
  refine ⟨trigs, h1, ?_, ?_, ?_⟩
  · simpa using h2 [] rfl
  · simpa [normRef, dgetD, dget] using h6 rfl _ rfl
  · simpa using h9 rfl _ rfl

/-! ## Claim C10 -/

/-- C10: each trigger entry's HTTP settings are read exclusively from
its nested `http` sub-mapping.  An entry without an `http` key —
whatever its top-level keys, including top-level `path`/`method`/`host`
— produces an HTTPTrigger with the inferred default path, method `GET`
and empty host. -/
theorem trigger_http_submap_only (P : ZipPrims) (dd dt : Nat) (krm : Krm)
    (ctx : Ctx) (f pkg : J) (ts : List J)
    (hctx : getCtx krm.functionConfig = some ctx)
    (hpkg : generate_package P dd dt ctx.package_name ctx.ns ctx.labels ctx.package_spec
      ctx.env_name ctx.env_ns (dget ctx.package_spec "buildcmd") = .ok pkg)
    (hl : ctx.functions_val = some (J.arr [f]))
    (hwf : funcWF f = true) (htm : tmplWF ctx.function_defaults = true)
    (hts : dget (objOf f) "triggers" = some (J.arr ts)) :
    ∃ trigs, transform P dd dt krm = .ok ⟨krm.functionConfig,
        krm.items ++ pkg :: funcResOf ctx (objOf f) :: trigs⟩ ∧
      trigs.length = ts.length ∧
      (∀ i t, ts.get? i = some t → dget (objOf t) "http" = none →
        ∃ trig, trigs.get? i = some trig ∧
          jGet2 trig "spec" "relativeurl" = some
            (J.s (if shortOf ctx (objOf f) == ctx.service_name
                  then "/" ++ ctx.service_name
                  else "/" ++ ctx.service_name ++ "/" ++ shortOf ctx (objOf f))) ∧
          jGet2 trig "spec" "method" = some (J.s "GET") ∧
          jGet2 trig "spec" "host" = some (J.s "")) := by
  have hval : ¬(0 < unnamedCount [f] ∧ 1 < ([f] : List J).length) := by simp
  have hfs : ∀ x ∈ ([f] : List J), funcWF x = true := by
    intro x hx
    rw [List.mem_singleton] at hx
    rw [hx]
    exact hwf
  have htr := transform_ok P dd dt krm ctx hctx pkg hpkg [f] hl (by simp) hval hfs htm
  have hsel : triggersSel ctx (objOf f) = ts := by
    simp [triggersSel, resolve_field, hts, arrOf]
  refine ⟨ts.map (fun t => trigResOf ctx (objOf f) t), ?_, by simp, ?_⟩
  · rw [htr]
    simp [blockOf, hsel]
  · intro i t hi ht
    have hhttp : httpOf t = [] := by
      cases t with
      | obj td =>
        simp only [objOf] at ht
        simp [httpOf, dgetD, ht]
      | s a => rfl
      | n a => rfl
      | b a => rfl
      | null => rfl
      | arr a => rfl
    refine ⟨trigResOf ctx (objOf f) t, ?_, ?_, ?_, ?_⟩
    · rw [List.get?_map, hi]
      rfl
    · simp [trigResOf, hhttp, generate_http_trigger, jGet2, jGet, dget]
      split <;> simp [jGet2, jGet, dget]
    · simp [trigResOf, hhttp, generate_http_trigger, jGet2, jGet, dget, dgetD]
    · simp [trigResOf, hhttp, generate_http_trigger, jGet2, jGet, dget, dgetD]

/-- A function whose single trigger entry carries top-level
`path`/`method`/`host` keys but no `http` sub-mapping. -/
def fnW10 : J := J.obj
  [("functionName", J.s "m.h"),
   ("triggers", J.arr [J.obj [("path", J.s "/top"), ("method", J.s "POST"),
                              ("host", J.s "elsewhere")]])]

/-- A Service with `fnW10` as its only function. -/
def svcW10 : J := J.obj
  [("apiVersion", J.s "serverless.krm.kubed.io/v1"), ("kind", J.s "Service"),
   ("metadata", J.obj [("name", J.s "hello")]),
   ("spec", J.obj [("environment", J.obj [("name", J.s "env")]),
                   ("functions", J.arr [fnW10])])]

/-- The ResourceList wrapping `svcW10`. -/
def krmW10 : Krm := ⟨svcW10, []⟩

/-- The context `getCtx` extracts from `svcW10`. -/
def ctxW10 : Ctx :=
  ⟨"hello", J.s "default", J.obj [], [], J.s "hello", J.s "env", J.s "default", [],
   some (J.arr [fnW10])⟩

theorem trigger_http_submap_only_witness :
    ∃ trigs, transform P0 0 0 krmW10 = .ok ⟨krmW10.functionConfig,
        krmW10.items ++ pkgW3 :: funcResOf ctxW10 (objOf fnW10) :: trigs⟩ ∧
      trigs.length = 1 ∧
      ∃ trig, trigs.get? 0 = some trig ∧
        jGet2 trig "spec" "relativeurl" = some (J.s "/hello") ∧
        jGet2 trig "spec" "method" = some (J.s "GET") ∧
        jGet2 trig "spec" "host" = some (J.s "") := by
  obtain ⟨trigs, h1, h2, h3⟩ := trigger_http_submap_only P0 0 0 krmW10 ctxW10 fnW10
    pkgW3 [J.obj [("path", J.s "/top"), ("method", J.s "POST"),
                  ("host", J.s "elsewhere")]]
    rfl rfl rfl (by decide) (by decide) rfl
  refine ⟨trigs, h1, by simpa using h2, ?_⟩
  obtain ⟨trig, hg, hp, hm, hh⟩ := h3 0 _ rfl rfl
  refine ⟨trig, hg, ?_, hm, hh⟩
  simpa [shortOf, objOf, dget, fnW10] using hp

/-! ## Claim C5 -/

/-- The identity of a generated resource: its kind and metadata name. -/
def rid (j : J) : Option J × Option J := (jGet j "kind", jGet2 j "metadata" "name")

/-- Generated Function resource names are injective in the function
short names. -/
theorem funcNameOf_inj (ctx : Ctx) (d1 d2 : List (String × J))
    (h : shortOf ctx d1 ≠ shortOf ctx d2) :
    funcNameOf ctx d1 ≠ funcNameOf ctx d2 := by
  unfold funcNameOf
  have hdash : ("-" : String).length = 1 := rfl
  by_cases c1 : (shortOf ctx d1 == ctx.service_name && !(dhas d1 "name")) = true
  · by_cases c2 : (shortOf ctx d2 == ctx.service_name && !(dhas d2 "name")) = true
    · have c1x := c1
      have c2x := c2
      rw [Bool.and_eq_true] at c1x c2x
      have e1 : shortOf ctx d1 = ctx.service_name := eq_of_beq c1x.1
      have e2 : shortOf ctx d2 = ctx.service_name := eq_of_beq c2x.1
      exact absurd (e1.trans e2.symm) h
    · rw [if_pos c1, if_neg c2]
      intro he
      have hlen := congrArg String.length he
      rw [String.length_append, String.length_append, hdash] at hlen
      omega
  · by_cases c2 : (shortOf ctx d2 == ctx.service_name && !(dhas d2 "name")) = true
    · rw [if_neg c1, if_pos c2]
      intro he
      have hlen := congrArg String.length he
      rw [String.length_append, String.length_append, hdash] at hlen
      omega
    · rw [if_neg c1, if_neg c2]
      intro he
      apply h
      have hd := congrArg String.data he
      rw [String.data_append, String.data_append, String.data_append,
        String.data_append, List.append_assoc, List.append_assoc] at hd
      exact String.ext (List.append_cancel_left (List.append_cancel_left hd))

/-- Every resource in a function's block is a Function or an
HTTPTrigger carrying that function's generated name. -/
theorem rid_mem_block (ctx : Ctx) (f x : J) (hx : x ∈ blockOf ctx f) :
    (jGet x "kind" = some (J.s "Function") ∨
     jGet x "kind" = some (J.s "HTTPTrigger")) ∧
    jGet2 x "metadata" "name" = some (J.s (funcNameOf ctx (objOf f))) := by
  simp only [blockOf, List.mem_cons, List.mem_map] at hx
  rcases hx with hx | ⟨t, ht, hx⟩
  · subst hx
    constructor
    · left
      unfold funcResOf
      exact (generate_function_kind_name _ _ _ _ _ _ _ _ _ _ _ _).1
    · unfold funcResOf
      exact (generate_function_kind_name _ _ _ _ _ _ _ _ _ _ _ _).2
  · subst hx
    constructor
    · right
      unfold trigResOf
      exact (generate_http_trigger_kind_name _ _ _ _ _ _ _).1
    · unfold trigResOf
      exact (generate_http_trigger_kind_name _ _ _ _ _ _ _).2

/-- Distinct generated names give pairwise-distinct identities across
the concatenated blocks, provided each function carries at most one
trigger. -/
theorem pairwise_rid_flatMap (ctx : Ctx) : ∀ l : List J,
    List.Pairwise (fun f g => funcNameOf ctx (objOf f) ≠ funcNameOf ctx (objOf g)) l →
    (∀ f ∈ l, (triggersSel ctx (objOf f)).length ≤ 1) →
    List.Pairwise (fun a b => rid a ≠ rid b) (l.flatMap (blockOf ctx))
  | [], _, _ => by simp
  | f :: fs, hp, htl => by
    rw [List.flatMap_cons, List.pairwise_append]
    rw [List.pairwise_cons] at hp
    obtain ⟨hpf, hptail⟩ := hp
    refine ⟨?_,
      pairwise_rid_flatMap ctx fs hptail
        (fun g hg => htl g (List.mem_cons_of_mem _ hg)), ?_⟩
    · have hlen := htl f (List.mem_cons_self f fs)
      cases hts : triggersSel ctx (objOf f) with
      | nil => simp [blockOf, hts]
      | cons t rest =>
        rw [hts] at hlen
        cases rest with
        | nil =>
          simp only [blockOf, hts, List.map_cons, List.map_nil]
          refine List.pairwise_cons.mpr ⟨?_, by simp⟩
          intro b hb
          rw [List.mem_singleton] at hb
          subst hb
          intro he
          have h1 := congrArg Prod.fst he
          have hk1 : jGet (funcResOf ctx (objOf f)) "kind" = some (J.s "Function") := by
            unfold funcResOf
            exact (generate_function_kind_name _ _ _ _ _ _ _ _ _ _ _ _).1
          have hk2 : jGet (trigResOf ctx (objOf f) t) "kind" =
              some (J.s "HTTPTrigger") := by
            unfold trigResOf
            exact (generate_http_trigger_kind_name _ _ _ _ _ _ _).1
          simp only [rid] at h1
          rw [hk1, hk2] at h1
          simp at h1
        | cons t2 rest2 => simp at hlen
    · intro x hx y hy
      obtain ⟨g, hg, hyg⟩ := List.mem_flatMap.mp hy
      obtain ⟨_, hx2⟩ := rid_mem_block ctx f x hx
      obtain ⟨_, hy2⟩ := rid_mem_block ctx g y hyg
      intro he
      have h2 := congrArg Prod.snd he
      simp only [rid] at h2
      rw [hx2, hy2] at h2
      simp only [Option.some.injEq, J.s.injEq] at h2
      exact hpf g hg h2

/-- C5 (amended): for every valid Service whose function short names
are pairwise distinct and whose functions carry at most one trigger
each, the resources appended by `transform` have pairwise-distinct
(kind, metadata.name) identities.  (When a function carries two or more
triggers the guarantee fails: all of its HTTPTriggers share the
Function resource's name — see the counterexample.) -/
theorem generated_identities_distinct (P : ZipPrims) (dd dt : Nat) (krm : Krm)
    (ctx : Ctx) (l : List J) (pkg : J)
    (hctx : getCtx krm.functionConfig = some ctx)
    (hpkg : generate_package P dd dt ctx.package_name ctx.ns ctx.labels ctx.package_spec
      ctx.env_name ctx.env_ns (dget ctx.package_spec "buildcmd") = .ok pkg)
    (hl : ctx.functions_val = some (J.arr l)) (hne : l ≠ [])
    (hval : ¬(0 < unnamedCount l ∧ 1 < l.length))
    (hfs : ∀ f ∈ l, funcWF f = true) (htm : tmplWF ctx.function_defaults = true)
    (hshort : l.Pairwise (fun f g => shortOf ctx (objOf f) ≠ shortOf ctx (objOf g)))
    (htrig : ∀ f ∈ l, (triggersSel ctx (objOf f)).length ≤ 1) :
    transform P dd dt krm =
      .ok ⟨krm.functionConfig, krm.items ++ pkg :: l.flatMap (blockOf ctx)⟩ ∧
    (pkg :: l.flatMap (blockOf ctx)).Pairwise (fun a b => rid a ≠ rid b) := by
  refine ⟨transform_ok P dd dt krm ctx hctx pkg hpkg l hl hne hval hfs htm, ?_⟩
  rw [List.pairwise_cons]
  constructor
  · intro y hy
    obtain ⟨g, hg, hyg⟩ := List.mem_flatMap.mp hy
    obtain ⟨hy1, _⟩ := rid_mem_block ctx g y hyg
    have hpk : jGet pkg "kind" = some (J.s "Package") :=
      (generate_package_shape P dd dt ctx.package_name ctx.ns ctx.labels
        ctx.package_spec ctx.env_name ctx.env_ns (dget ctx.package_spec "buildcmd")
        pkg hpkg).1
    intro he
    have h1 := congrArg Prod.fst he
    simp only [rid] at h1
    rw [hpk] at h1
    rcases hy1 with hy1 | hy1 <;> rw [hy1] at h1 <;> simp at h1
  · exact pairwise_rid_flatMap ctx l
      (hshort.imp (fun h => funcNameOf_inj ctx _ _ h)) htrig

/-- A Service whose single function carries two trigger entries. -/
def svcC5 : J := J.obj
  [("apiVersion", J.s "serverless.krm.kubed.io/v1"), ("kind", J.s "Service"),
   ("metadata", J.obj [("name", J.s "svc")]),
   ("spec", J.obj [("environment", J.obj [("name", J.s "env")]),
                   ("functions", J.arr [J.obj [("functionName", J.s "m.h"),
                     ("triggers", J.arr [J.obj [], J.obj []])]])])]

/-- The ResourceList wrapping `svcC5`. -/
def krmC5 : Krm := ⟨svcC5, []⟩

/-- The Function resource `transform` generates for `svcC5`. -/
def fnResC5 : J := J.obj
  [("apiVersion", J.s "fission.io/v1"), ("kind", J.s "Function"),
   ("metadata", J.obj [("name", J.s "svc"), ("namespace", J.s "default")]),
   ("spec", J.obj
     [("environment", J.obj [("name", J.s "env"), ("namespace", J.s "default")]),
      ("package", J.obj [("packageref", J.obj [("name", J.s "svc"),
                                               ("namespace", J.s "default")]),
                         ("functionName", J.s "m.h")]),
      ("InvokeStrategy", J.obj [("StrategyType", J.s "execution"),
        ("ExecutionStrategy", J.obj [("ExecutorType", J.s "poolmgr")])])])]

/-- The HTTPTrigger resource `transform` generates — twice — for
`svcC5`. -/
def trigC5 : J := J.obj
  [("apiVersion", J.s "fission.io/v1"), ("kind", J.s "HTTPTrigger"),
   ("metadata", J.obj [("name", J.s "svc"), ("namespace", J.s "default")]),
   ("spec", J.obj [("host", J.s ""), ("method", J.s "GET"),
                   ("relativeurl", J.s "/svc"),
                   ("functionref", J.obj [("type", J.s "name"),
                                          ("name", J.s "svc")])])]

/-- C5 counterexample: a valid Service with one function and two
triggers produces two appended HTTPTriggers that are literally the same
resource — same kind `HTTPTrigger` and same `metadata.name` — so the
appended resources do not have pairwise-distinct (kind, name)
identities. -/
theorem duplicate_trigger_identity_counterexample :
    transform P0 0 0 krmC5 = .ok ⟨svcC5, [pkgC1, fnResC5, trigC5, trigC5]⟩ ∧
    jGet trigC5 "kind" = some (J.s "HTTPTrigger") ∧
    jGet2 trigC5 "metadata" "name" = some (J.s "svc") :=
  ⟨rfl, rfl, rfl⟩

/-- Two named functions, one trigger each. -/
def fnsW5 : List J :=
  [J.obj [("name", J.s "list"), ("functionName", J.s "m.l"),
          ("triggers", J.arr [J.obj []])],
   J.obj [("name", J.s "get"), ("functionName", J.s "m.g"),
          ("triggers", J.arr [J.obj []])]]

/-- A Service carrying `fnsW5`. -/
def svcW5 : J := J.obj
  [("apiVersion", J.s "serverless.krm.kubed.io/v1"), ("kind", J.s "Service"),
   ("metadata", J.obj [("name", J.s "api")]),
   ("spec", J.obj [("environment", J.obj [("name", J.s "env")]),
                   ("functions", J.arr fnsW5)])]

/-- The ResourceList wrapping `svcW5`. -/
def krmW5 : Krm := ⟨svcW5, []⟩

/-- The context `getCtx` extracts from `svcW5`. -/
def ctxW5 : Ctx :=
  ⟨"api", J.s "default", J.obj [], [], J.s "api", J.s "env", J.s "default", [],
   some (J.arr fnsW5)⟩

/-- The Package `transform` generates for `svcW5`. -/
def pkgW5 : J := J.obj
  [("apiVersion", J.s "fission.io/v1"), ("kind", J.s "Package"),
   ("metadata", J.obj [("name", J.s "api"), ("namespace", J.s "default")]),
   ("spec", J.obj [("environment", J.obj [("name", J.s "env"),
                                          ("namespace", J.s "default")])]),
   ("status", J.obj [("buildstatus", J.s "pending")])]

theorem generated_identities_distinct_witness :
    transform P0 0 0 krmW5 =
      .ok ⟨krmW5.functionConfig, krmW5.items ++ pkgW5 :: fnsW5.flatMap (blockOf ctxW5)⟩ ∧
    (pkgW5 :: fnsW5.flatMap (blockOf ctxW5)).Pairwise (fun a b => rid a ≠ rid b) :=
  generated_identities_distinct P0 0 0 krmW5 ctxW5 fnsW5 pkgW5 rfl rfl rfl
    (by simp [fnsW5]) (by decide) (by decide) (by decide) (by decide) (by decide)
